import Mathlib

/-!
Verification development for the simple-content-mcp server.

This file gives a shallow embedding, in Lean, of the parts of the Go code
that the specification's claims are about:

* the `/mcp` HTTP gate of `serveSSE` (origin validation, protocol-version
  negotiation, API-key extraction) from `pkg/mcpserver/server.go`;
* the error taxonomy mapping `MapError` from `pkg/mcpserver/errors/errors.go`;
* the API-key credential parsing `parseAPIKeyEnv` from `cmd/mcpserver`;
* the batch handlers `handleBatchUpload` and `handleBatchGetDetails`;
* the single-item handlers `handleUploadContent`, `handleListContent`,
  `handleSearchContent` and `handleUpdateContent` from
  `pkg/mcpserver/handlers.go`.

External collaborators (the `simple-content` service, `google/uuid` parsing,
RFC3339 time parsing, the MCP SDK transport) are modelled as parameters:
arbitrary functions supplied to the embedded handlers.  Go's untyped JSON
values (`map[string]interface{}`) are modelled by the inductive `GoVal`;
JSON numbers are modelled as integers (every number the claims touch is an
integral count or offset).  Go strings are modelled as Lean strings, with
byte-wise loops rendered character-wise (all relevant literals are ASCII).
Go slice expressions, which panic when out of range, are modelled with
`Option`; a `none` marks the panic.
-/

namespace SCMCP

/-- UUIDs are kept abstract as their string rendering; `google/uuid.Parse`
is a parameter wherever it is used. -/
abbrev UUID := String

/-- The zero value of `uuid.UUID` (`uuid.Nil`). -/
def uuidNil : UUID := ""

/-- A Go `interface{}` value decoded from JSON, as produced by
`json.Unmarshal` into `map[string]interface{}`. -/
inductive GoVal where
  | vnil
  | vstr (s : String)
  | vint (n : Int)
  | vbool (b : Bool)
  | varr (elems : List GoVal)
  | vobj (fields : List (String × GoVal))

/-- The parameter map a handler sees after unmarshalling its arguments. -/
abbrev ParamMap := List (String × GoVal)

/-- Go map indexing `params[key]`: a missing key yields the zero value
(`nil` interface). -/
def lookupGo (params : ParamMap) (key : String) : GoVal :=
  (params.lookup key).getD .vnil

/-- `getStringOr` from `server.go`: the value if present and a string,
otherwise the default. -/
def getStringOr (params : ParamMap) (key defaultVal : String) : String :=
  match params.lookup key with
  | some (.vstr s) => s
  | _ => defaultVal

/-- `getIntOr` from `server.go` (the `int`/`int64`/`float64` cases collapse
onto the single integer constructor of `GoVal`). -/
def getIntOr (params : ParamMap) (key : String) (defaultVal : Int) : Int :=
  match params.lookup key with
  | some (.vint n) => n
  | _ => defaultVal

/-- `getBoolOr` from `server.go`. -/
def getBoolOr (params : ParamMap) (key : String) (defaultVal : Bool) : Bool :=
  match params.lookup key with
  | some (.vbool b) => b
  | _ => defaultVal

/-- `getStringSlice` from `server.go`: keeps only the string elements. -/
def getStringSlice (params : ParamMap) (key : String) : List String :=
  match params.lookup key with
  | some (.varr arr) =>
      arr.filterMap (fun v => match v with | .vstr s => some s | _ => none)
  | _ => []

/-- `getMap` from `server.go`; `none` models the `nil` map. -/
def getMap (params : ParamMap) (key : String) : Option (List (String × GoVal)) :=
  match params.lookup key with
  | some (.vobj m) => some m
  | _ => none

/-- `parseUUID` from `server.go`: the value must be a string that
`uuid.Parse` accepts.  The error payload is the message text. -/
def parseUUIDval (uuidParse : String → Option UUID) (v : GoVal) : Except String UUID :=
  match v with
  | .vstr s =>
      match uuidParse s with
      | some u => .ok u
      | none => .error ("invalid UUID: " ++ s)
  | _ => .error "expected string"

/-- `parseTenantID` from `server.go`: `nil` and parse failures both give
`uuid.Nil`. -/
def parseTenantID (uuidParse : String → Option UUID) (v : GoVal) : UUID :=
  match v with
  | .vnil => uuidNil
  | _ =>
      match parseUUIDval uuidParse v with
      | .ok u => u
      | .error _ => uuidNil

/-! ### strings.SplitN -/

/-- Break a character list at the first occurrence of `sep`. -/
def breakAtSep (sep : Char) : List Char → Option (List Char × List Char)
  | [] => none
  | c :: cs =>
      if c = sep then some ([], cs)
      else (breakAtSep sep cs).map (fun p => (c :: p.1, p.2))

/-- `strings.SplitN` restricted to a single-character separator, on
character lists: at most `n` fields, the last field keeping the rest. -/
def splitNChars (sep : Char) : List Char → Nat → List (List Char)
  | _, 0 => []
  | cs, 1 => [cs]
  | cs, Nat.succ (Nat.succ n) =>
      match breakAtSep sep cs with
      | none => [cs]
      | some (pre, post) => pre :: splitNChars sep post (Nat.succ n)

/-- `strings.SplitN(s, sep, n)` for a one-character separator. -/
def goSplitN (s : String) (sep : Char) (n : Nat) : List String :=
  (splitNChars sep s.data n).map (fun cs => String.mk cs)

/-! ### parseAPIKeyEnv (cmd/mcpserver/config.go) -/

/-- `auth.KeyInfo` as populated by `parseAPIKeyEnv`; the RFC3339 time type
is abstract. -/
structure KeyInfo (Time : Type) where
  key : String
  ownerID : UUID
  tenantID : UUID := uuidNil
  expiresAt : Option Time := none

/-- `parseAPIKeyEnv` from `cmd/mcpserver`: `key:owner_id:tenant_id:expires_at`
split into at most four fields; owner is required, tenant and expiry are
attached only when present, non-empty, and parseable. -/
def parseAPIKeyEnv {Time : Type} (uuidParse : String → Option UUID)
    (rfc3339Parse : String → Option Time) (value : String) : Option (KeyInfo Time) :=
  let parts := goSplitN value ':' 4
  if parts.length < 2 then none
  else
    match uuidParse (parts.getD 1 "") with
    | none => none
    | some ownerID =>
        let ki : KeyInfo Time := { key := parts.getD 0 "", ownerID := ownerID }
        let ki :=
          if 2 < parts.length ∧ parts.getD 2 "" ≠ "" then
            match uuidParse (parts.getD 2 "") with
            | some tid => { ki with tenantID := tid }
            | none => ki
          else ki
        let ki :=
          if 3 < parts.length ∧ parts.getD 3 "" ≠ "" then
            match rfc3339Parse (parts.getD 3 "") with
            | some t => { ki with expiresAt := some t }
            | none => ki
          else ki
        some ki

/-! ### Error taxonomy and MapError (pkg/mcpserver/errors/errors.go) -/

/-- The sentinel category errors of `pkg/mcpserver/errors`. -/
inductive ErrCategory where
  | validationCat
  | notFoundCat
  | internalCat
  | storageCat
  | unauthorizedCat
  | forbiddenCat
deriving DecidableEq, Repr

/-- `toLower` from `errors.go` (single ASCII byte). -/
def goLowerChar (c : Char) : Char :=
  if 'A' ≤ c ∧ c ≤ 'Z' then Char.ofNat (c.toNat + ('a'.toNat - 'A'.toNat)) else c

/-- `matchAt` from `errors.go`: case-insensitive match of `substr` inside
`s` at position `pos`. -/
def errMatchAt (s substr : List Char) (pos : Nat) : Bool :=
  (List.range substr.length).all fun i =>
    match s.getD (pos + i) ' ', substr.getD i ' ' with
    | c1, c2 => c1 == c2 || goLowerChar c1 == goLowerChar c2

/-- `findSubstring` from `errors.go`. -/
def errFindSubstring (s substr : List Char) : Bool :=
  (List.range (s.length - substr.length + 1)).any fun i => errMatchAt s substr i

/-- `contains` from `errors.go`: case-insensitive substring test. -/
def errContains (s substr : String) : Bool :=
  s.length ≥ substr.length && (s == substr || errFindSubstring s.data substr.data)

/-- `MapError` from `errors.go`, on the message string of a (possibly nil)
error.  The result pairs the original message with the sentinel category the
mapped error wraps; `none` in the second component means the original error
was returned unchanged, with no category attached. -/
def MapError (err : Option String) : Option (String × Option ErrCategory) :=
  match err with
  | none => none
  | some errStr =>
      if errContains errStr "not found" then some (errStr, some .notFoundCat)
      else if errContains errStr "validation" || errContains errStr "invalid" then
        some (errStr, some .validationCat)
      else if errContains errStr "storage" || errContains errStr "blob"
          || errContains errStr "s3" then
        some (errStr, some .storageCat)
      else if errContains errStr "unauthorized" || errContains errStr "authentication" then
        some (errStr, some .unauthorizedCat)
      else if errContains errStr "forbidden" || errContains errStr "permission" then
        some (errStr, some .forbiddenCat)
      else some (errStr, none)

/-- The errors a handler returns: parameter-validation errors built by
`NewValidationError`, internal errors, and service errors routed through
`s.mapError`. -/
inductive MCPError where
  | validation (field : String) (msg : String)
  | internalErr (msg : String)
  | mapped (orig : String) (cat : Option ErrCategory)
deriving DecidableEq, Repr

/-- `s.mapError` applied to a service error with message `e`. -/
def sMapError (e : String) : MCPError :=
  match MapError (some e) with
  | some p => .mapped p.1 p.2
  | none => .mapped e none

/-! ### The /mcp gate of serveSSE (pkg/mcpserver/server.go) -/

/-- The configuration fields the `/mcp` wrapper reads. -/
structure GateConfig where
  host : String
  authEnabled : Bool

/-- The request headers the `/mcp` wrapper reads (`Header.Get` yields `""`
for an absent header). -/
structure GateRequest where
  origin : String
  protocolVersion : String
  sessionID : String
  xAPIKey : String
  authz : String

/-- `strings.HasPrefix` on character lists. -/
def goHasPrefixList : List Char → List Char → Bool
  | [], _ => true
  | _ :: _, [] => false
  | p :: ps, c :: cs => (p == c) && goHasPrefixList ps cs

/-- `strings.HasPrefix(s, pre)`. -/
def goHasPrefix (s pre : String) : Bool :=
  goHasPrefixList pre.data s.data

/-- `extractAPIKeyFromHeader` from `server.go`. -/
def extractAPIKeyFromHeader (r : GateRequest) : String :=
  if r.xAPIKey ≠ "" then r.xAPIKey
  else if r.authz ≠ "" then
    if goHasPrefix r.authz "Bearer " then r.authz.drop 7 else r.authz
  else ""

/-- The protocol-version allow-list of `serveSSE`. -/
def supportedVersions : List String := ["2024-11-05", "2025-03-26", "2025-06-18"]

/-- The loop-back origin test of `serveSSE`. -/
def loopbackOrigin (origin : String) : Bool :=
  goHasPrefix origin "http://localhost" || goHasPrefix origin "http://127.0.0.1"

/-- The condition under which the `/mcp` wrapper rejects the Origin header. -/
def originRejected (cfg : GateConfig) (r : GateRequest) : Bool :=
  !(r.origin == "") && (cfg.host == "localhost" || cfg.host == "127.0.0.1")
    && !(loopbackOrigin r.origin)

/-- What the `/mcp` wrapper does with a request before handing it to the
SDK's stream handler (which is where a session is created). -/
inductive GateOutcome where
  | forbidden
  | badVersion
  | unauthorized (msg : String)
  | serve (protocolVersion : String) (sessionID : String)
deriving DecidableEq, Repr

/-- The `/mcp` wrapper of `serveSSE` after the Origin check:
protocol-version negotiation (absent defaults to `"2025-03-26"`), then the
API-key check, then the hand-off to the SDK handler. -/
def mcpGateAfterOrigin (cfg : GateConfig) (validateKey : Option (String → Bool))
    (r : GateRequest) : GateOutcome :=
  let protocolVersion := if r.protocolVersion == "" then "2025-03-26" else r.protocolVersion
  let validVersion := supportedVersions.any fun v => protocolVersion == v
  if !validVersion then .badVersion
  else if cfg.authEnabled && validateKey.isSome then
    let apiKey := extractAPIKeyFromHeader r
    if apiKey == "" then .unauthorized "API key required"
    else if !((validateKey.getD (fun _ => false)) apiKey) then .unauthorized "Invalid API key"
    else .serve protocolVersion r.sessionID
  else .serve protocolVersion r.sessionID

/-- The `/mcp` wrapper of `serveSSE`: origin validation first, then the
rest of the gate. -/
def mcpGate (cfg : GateConfig) (validateKey : Option (String → Bool))
    (r : GateRequest) : GateOutcome :=
  if originRejected cfg r then .forbidden
  else mcpGateAfterOrigin cfg validateKey r

/-! ### Batch handlers (batch.go, quoted in src/README.md) -/

/-- `BatchUploadItem` from `batch.go`; Go zero values as defaults. -/
structure BatchUploadItem where
  name : String := ""
  data : String := ""
  fileName : String := ""
  description : String := ""
  documentType : String := ""
  tags : List String := []
  metadata : Option (List (String × GoVal)) := none
  storageBackend : String := ""

instance : Inhabited BatchUploadItem := ⟨{}⟩

/-- `BatchUploadResult` from `batch.go`; the Go zero value of the result
slot is the record of defaults. -/
structure BatchUploadResult where
  index : Nat := 0
  success : Bool := false
  contentID : String := ""
  error : String := ""
deriving DecidableEq, Repr

instance : Inhabited BatchUploadResult := ⟨{}⟩

/-- `json.Unmarshal` of a JSON value into a Go `string` field: strings
decode, `null` leaves the zero value, anything else errors. -/
def decodeStringField (v : GoVal) : Except String String :=
  match v with
  | .vstr s => .ok s
  | .vnil => .ok ""
  | _ => .error "cannot unmarshal into field of type string"

/-- `json.Unmarshal` into a `[]string` field. -/
def decodeStringListField (v : GoVal) : Except String (List String) :=
  match v with
  | .varr elems => elems.mapM decodeStringField
  | .vnil => .ok []
  | _ => .error "cannot unmarshal into field of type []string"

/-- `json.Unmarshal` into a `map[string]interface{}` field. -/
def decodeMapField (v : GoVal) : Except String (Option (List (String × GoVal))) :=
  match v with
  | .vobj m => .ok (some m)
  | .vnil => .ok none
  | _ => .error "cannot unmarshal into field of type map"

/-- One step of unmarshalling an object field into a `BatchUploadItem`;
unknown keys are ignored, as `encoding/json` does. -/
def setItemField (it : BatchUploadItem) (kv : String × GoVal) : Except String BatchUploadItem :=
  if kv.1 = "name" then do
    let s ← decodeStringField kv.2; pure { it with name := s }
  else if kv.1 = "data" then do
    let s ← decodeStringField kv.2; pure { it with data := s }
  else if kv.1 = "file_name" then do
    let s ← decodeStringField kv.2; pure { it with fileName := s }
  else if kv.1 = "description" then do
    let s ← decodeStringField kv.2; pure { it with description := s }
  else if kv.1 = "document_type" then do
    let s ← decodeStringField kv.2; pure { it with documentType := s }
  else if kv.1 = "tags" then do
    let ts ← decodeStringListField kv.2; pure { it with tags := ts }
  else if kv.1 = "metadata" then do
    let m ← decodeMapField kv.2; pure { it with metadata := m }
  else if kv.1 = "storage_backend" then do
    let s ← decodeStringField kv.2; pure { it with storageBackend := s }
  else pure it

/-- `json.Marshal` + `json.Unmarshal` of an item object into a
`BatchUploadItem`. -/
def batchItemFromObj (fields : List (String × GoVal)) : Except String BatchUploadItem :=
  fields.foldlM setItemField {}

/-- The per-item validation loop of `handleBatchUpload`: each raw item must
be an object, must unmarshal, and must have non-empty `name` and `data`.
The index `i` is the position of the first element of the remaining list. -/
def parseBatchItemsFrom (i : Nat) : List GoVal → Except MCPError (List BatchUploadItem)
  | [] => .ok []
  | v :: rest =>
      match v with
      | .vobj fields =>
          match batchItemFromObj fields with
          | .error e => .error (.validation ("items[" ++ toString i ++ "]") e)
          | .ok item =>
              if item.name = "" then
                .error (.validation ("items[" ++ toString i ++ "].name") "name is required")
              else if item.data = "" then
                .error (.validation ("items[" ++ toString i ++ "].data") "data is required")
              else
                match parseBatchItemsFrom (i + 1) rest with
                | .error e => .error e
                | .ok items => .ok (item :: items)
      | _ => .error (.validation ("items[" ++ toString i ++ "]") "must be an object")

/-- All per-item validation of `handleBatchUpload`. -/
def parseBatchItems (itemsArray : List GoVal) : Except MCPError (List BatchUploadItem) :=
  parseBatchItemsFrom 0 itemsArray

/-- `simplecontent.UploadContentRequest` as built by the handlers; the
reader produced by `decodeData` is abstract. -/
structure UploadContentRequest (Reader : Type) where
  ownerID : UUID
  tenantID : UUID
  name : String
  description : String
  documentType : String
  storageBackendName : String
  reader : Reader
  fileName : String
  tags : List String
  customMetadata : Option (List (String × GoVal))

/-- The body of one `batch_upload` goroutine: decode the data, build the
upload request, call the service, and record the slot outcome.  Also
returns the list of service calls the unit performed. -/
def batchUploadUnit {Reader Content : Type}
    (decodeData : String → Except String Reader)
    (uploadContent : UploadContentRequest Reader → Except String Content)
    (contentIDString : Content → String)
    (ownerID tenantID : UUID) (index : Nat) (item : BatchUploadItem) :
    BatchUploadResult × List (UploadContentRequest Reader) :=
  match decodeData item.data with
  | .error e =>
      ({ index := index, success := false, error := "failed to decode data: " ++ e }, [])
  | .ok reader =>
      let req : UploadContentRequest Reader :=
        { ownerID := ownerID, tenantID := tenantID, name := item.name,
          description := item.description, documentType := item.documentType,
          storageBackendName := if item.storageBackend ≠ "" then item.storageBackend else "default",
          reader := reader, fileName := item.fileName, tags := item.tags,
          customMetadata := item.metadata }
      match uploadContent req with
      | .error e =>
          ({ index := index, success := false, error := "upload failed: " ++ e }, [req])
      | .ok content =>
          ({ index := index, success := true, contentID := contentIDString content }, [req])

/-- Fan-out execution: the goroutines complete in the order `order`, each
writing its own outcome into its own slot of the pre-sized result array. -/
def runOrder {α : Type} (outcome : Nat → α) (order : List Nat) (init : List α) : List α :=
  order.foldl (fun acc i => acc.set i (outcome i)) init

/-- The service calls of the units, concatenated in completion order. -/
def runOrderCalls {κ : Type} (callsOf : Nat → List κ) (order : List Nat) : List κ :=
  order.foldl (fun acc i => acc ++ callsOf i) []

/-- The aggregate response of a batch handler. -/
structure BatchResponse (R : Type) where
  results : List R
  total : Nat
  successful : Nat
  failed : Nat

/-- The fan-out/fan-in tail of `handleBatchUpload`, after validation:
results array pre-sized to the item count, one unit per item, counters
computed after the join. -/
def batchUploadFanout {Reader Content : Type}
    (decodeData : String → Except String Reader)
    (uploadContent : UploadContentRequest Reader → Except String Content)
    (contentIDString : Content → String)
    (ownerID tenantID : UUID) (items : List BatchUploadItem) (order : List Nat) :
    BatchResponse BatchUploadResult × List (UploadContentRequest Reader) :=
  let unit := fun i =>
    batchUploadUnit decodeData uploadContent contentIDString ownerID tenantID i
      (items.getD i default)
  let results := runOrder (fun i => (unit i).1) order (List.replicate items.length default)
  let successful := (results.filter fun r => r.success).length
  let failed := (results.filter fun r => !r.success).length
  ({ results := results, total := results.length, successful := successful, failed := failed },
    runOrderCalls (fun i => (unit i).2) order)

/-- `handleBatchUpload` from the point where `owner_id` and `tenant_id`
have been parsed: the `items` shape checks, the size-limit check, per-item
validation, then the parallel fan-out. -/
def handleBatchUploadItems {Reader Content : Type}
    (decodeData : String → Except String Reader)
    (uploadContent : UploadContentRequest Reader → Except String Content)
    (contentIDString : Content → String)
    (maxBatchSize : Nat) (ownerID tenantID : UUID) (p : ParamMap) (order : List Nat) :
    Except MCPError (BatchResponse BatchUploadResult) × List (UploadContentRequest Reader) :=
  match p.lookup "items" with
  | none => (.error (.validation "items" "items array is required"), [])
  | some itemsRaw =>
      match itemsRaw with
      | .varr itemsArray =>
          if itemsArray.length = 0 then
            (.error (.validation "items" "items array cannot be empty"), [])
          else if itemsArray.length > maxBatchSize then
            (.error (.validation "items"
              ("batch size " ++ toString itemsArray.length ++ " exceeds maximum "
                ++ toString maxBatchSize)), [])
          else
            match parseBatchItems itemsArray with
            | .error e => (.error e, [])
            | .ok items =>
                let out := batchUploadFanout decodeData uploadContent contentIDString
                  ownerID tenantID items order
                (.ok out.1, out.2)
      | _ => (.error (.validation "items" "items must be an array"), [])

/-- `handleBatchUpload` from `batch.go`: unmarshal, parse `owner_id` and the
optional `tenant_id`, then the item pipeline.  `order` is the completion
order of the goroutines. -/
def handleBatchUpload {Reader Content : Type}
    (decodeData : String → Except String Reader)
    (uploadContent : UploadContentRequest Reader → Except String Content)
    (contentIDString : Content → String)
    (uuidParse : String → Option UUID) (maxBatchSize : Nat)
    (params : Option ParamMap) (order : List Nat) :
    Except MCPError (BatchResponse BatchUploadResult) × List (UploadContentRequest Reader) :=
  match params with
  | none => (.error (.validation "arguments" "cannot unmarshal arguments"), [])
  | some p =>
      match parseUUIDval uuidParse (lookupGo p "owner_id") with
      | .error e => (.error (.validation "owner_id" e), [])
      | .ok ownerID =>
          match p.lookup "tenant_id" with
          | some tv =>
              match parseUUIDval uuidParse tv with
              | .error e => (.error (.validation "tenant_id" e), [])
              | .ok tenantID =>
                  handleBatchUploadItems decodeData uploadContent contentIDString
                    maxBatchSize ownerID tenantID p order
          | none =>
              handleBatchUploadItems decodeData uploadContent contentIDString
                maxBatchSize ownerID uuidNil p order

/-- The per-slot record of `handleBatchGetDetails` (`detailResult`); the Go
zero value has a `nil` details map and an empty error. -/
structure DetailResult (Details : Type) where
  index : Nat := 0
  details : Option Details := none
  error : String := ""

instance {Details : Type} : Inhabited (DetailResult Details) := ⟨{}⟩

/-- The body of one `batch_get_details` goroutine. -/
def batchGetDetailsUnit {Details : Type}
    (getContentDetails : UUID → Except String Details)
    (index : Nat) (id : UUID) : DetailResult Details × List UUID :=
  match getContentDetails id with
  | .error e => ({ index := index, error := "failed to get details: " ++ e }, [id])
  | .ok d => ({ index := index, details := some d }, [id])

/-- The ID-parsing loop of `handleBatchGetDetails`. -/
def parseContentIDsFrom (uuidParse : String → Option UUID) (i : Nat) :
    List GoVal → Except MCPError (List UUID)
  | [] => .ok []
  | v :: rest =>
      match parseUUIDval uuidParse v with
      | .error e => .error (.validation ("content_ids[" ++ toString i ++ "]") e)
      | .ok id =>
          match parseContentIDsFrom uuidParse (i + 1) rest with
          | .error e => .error e
          | .ok ids => .ok (id :: ids)

/-- The fan-out/fan-in tail of `handleBatchGetDetails`; a slot is counted
successful exactly when its error string is empty. -/
def batchGetDetailsFanout {Details : Type}
    (getContentDetails : UUID → Except String Details)
    (ids : List UUID) (order : List Nat) :
    BatchResponse (DetailResult Details) × List UUID :=
  let unit := fun i => batchGetDetailsUnit getContentDetails i (ids.getD i uuidNil)
  let results := runOrder (fun i => (unit i).1) order (List.replicate ids.length default)
  let successful := (results.filter fun r => r.error == "").length
  let failed := (results.filter fun r => !(r.error == "")).length
  ({ results := results, total := results.length, successful := successful, failed := failed },
    runOrderCalls (fun i => (unit i).2) order)

/-- `handleBatchGetDetails` from `batch.go`. -/
def handleBatchGetDetails {Details : Type}
    (getContentDetails : UUID → Except String Details)
    (uuidParse : String → Option UUID) (maxBatchSize : Nat)
    (params : Option ParamMap) (order : List Nat) :
    Except MCPError (BatchResponse (DetailResult Details)) × List UUID :=
  match params with
  | none => (.error (.validation "arguments" "cannot unmarshal arguments"), [])
  | some p =>
      match p.lookup "content_ids" with
      | none => (.error (.validation "content_ids" "content_ids array is required"), [])
      | some idsRaw =>
          match idsRaw with
          | .varr idsArray =>
              if idsArray.length = 0 then
                (.error (.validation "content_ids" "content_ids array cannot be empty"), [])
              else if idsArray.length > maxBatchSize then
                (.error (.validation "content_ids"
                  ("batch size " ++ toString idsArray.length ++ " exceeds maximum "
                    ++ toString maxBatchSize)), [])
              else
                match parseContentIDsFrom uuidParse 0 idsArray with
                | .error e => (.error e, [])
                | .ok ids =>
                    let out := batchGetDetailsFanout getContentDetails ids order
                    (.ok out.1, out.2)
          | _ => (.error (.validation "content_ids" "content_ids must be an array"), [])

/-! ### Fan-out reassembly lemmas -/

theorem runOrder_length {α : Type} (outcome : Nat → α) (order : List Nat) (init : List α) :
    (runOrder outcome order init).length = init.length := by
  induction order generalizing init with
  | nil => rfl
  | cons j rest ih =>
      show (runOrder outcome rest (init.set j (outcome j))).length = init.length
      rw [ih, List.length_set]

theorem runOrder_getElem?_not_mem {α : Type} (outcome : Nat → α) {order : List Nat}
    (init : List α) {i : Nat} (h : i ∉ order) :
    (runOrder outcome order init)[i]? = init[i]? := by
  induction order generalizing init with
  | nil => rfl
  | cons j rest ih =>
      have hij : i ≠ j := fun e => h (e ▸ List.mem_cons_self j rest)
      have hrest : i ∉ rest := fun hr => h (List.mem_cons_of_mem _ hr)
      show (runOrder outcome rest (init.set j (outcome j)))[i]? = init[i]?
      rw [ih _ hrest, List.getElem?_set_ne (Ne.symm hij)]

theorem runOrder_getElem?_mem {α : Type} (outcome : Nat → α) {order : List Nat}
    (init : List α) {i : Nat} (hmem : i ∈ order) (hi : i < init.length) :
    (runOrder outcome order init)[i]? = some (outcome i) := by
  induction order generalizing init with
  | nil => cases hmem
  | cons j rest ih =>
      show (runOrder outcome rest (init.set j (outcome j)))[i]? = some (outcome i)
      by_cases hr : i ∈ rest
      · exact ih (init.set j (outcome j)) hr (by rw [List.length_set]; exact hi)
      · have hij : i = j := by
          rcases List.mem_cons.mp hmem with h | h
          · exact h
          · exact absurd h hr
        subst hij
        rw [runOrder_getElem?_not_mem outcome _ hr, List.getElem?_set_self hi]

/-- Index-preserving reassembly: when the completion order covers exactly
the unit indices, the joined result array is the per-index outcome list,
independent of the order. -/
theorem runOrder_eq_map {α : Type} (outcome : Nat → α) {order : List Nat} {N : Nat} (d : α)
    (hcover : ∀ i, i ∈ order ↔ i < N) :
    runOrder outcome order (List.replicate N d) = (List.range N).map outcome := by
  apply List.ext_getElem?
  intro n
  by_cases hn : n < N
  · rw [runOrder_getElem?_mem outcome _ ((hcover n).mpr hn) (by simpa using hn),
      List.getElem?_map, List.getElem?_range hn]
    rfl
  · rw [runOrder_getElem?_not_mem outcome _ (fun hm => hn ((hcover n).mp hm))]
    rw [List.getElem?_eq_none (by simpa using Nat.le_of_not_lt hn),
      List.getElem?_eq_none (by simpa using Nat.le_of_not_lt hn)]

theorem length_filter_add_length_filter_not {α : Type} (p : α → Bool) (l : List α) :
    (l.filter p).length + (l.filter fun a => !p a).length = l.length := by
  induction l with
  | nil => rfl
  | cons a l ih =>
      by_cases h : p a <;> simp [List.filter_cons, h, ← ih] <;> omega

theorem length_filter_of_map {α β : Type} (p : β → Bool) (f : α → β) (l : List α) :
    ((l.map f).filter p).length = (l.filter fun a => p (f a)).length := by
  rw [List.filter_map, List.length_map]; rfl

/-! ### Characterizations of the batch handlers -/

theorem batchUploadUnit_index {Reader Content : Type}
    (decodeData : String → Except String Reader)
    (uploadContent : UploadContentRequest Reader → Except String Content)
    (contentIDString : Content → String)
    (ownerID tenantID : UUID) (i : Nat) (item : BatchUploadItem) :
    (batchUploadUnit decodeData uploadContent contentIDString ownerID tenantID i item).1.index
      = i := by
  unfold batchUploadUnit
  rcases decodeData item.data with e | r
  · rfl
  · dsimp only
    split <;> rfl

theorem batchGetDetailsUnit_index {Details : Type}
    (getContentDetails : UUID → Except String Details) (i : Nat) (id : UUID) :
    (batchGetDetailsUnit getContentDetails i id).1.index = i := by
  unfold batchGetDetailsUnit
  split <;> rfl

theorem parseBatchItemsFrom_length (i : Nat) (itemsArray : List GoVal)
    (items : List BatchUploadItem) (h : parseBatchItemsFrom i itemsArray = .ok items) :
    items.length = itemsArray.length := by
  induction itemsArray generalizing i items with
  | nil =>
      simp only [parseBatchItemsFrom] at h
      cases h; rfl
  | cons v rest ih =>
      simp only [parseBatchItemsFrom] at h
      split at h
      · split at h
        · exact absurd h (by simp)
        · split at h
          · exact absurd h (by simp)
          · split at h
            · exact absurd h (by simp)
            · split at h
              · exact absurd h (by simp)
              · rename_i items' hrest
                cases h
                simpa using ih (i + 1) items' hrest
      · exact absurd h (by simp)

theorem parseContentIDsFrom_length (uuidParse : String → Option UUID) (i : Nat)
    (idsArray : List GoVal) (ids : List UUID)
    (h : parseContentIDsFrom uuidParse i idsArray = .ok ids) :
    ids.length = idsArray.length := by
  induction idsArray generalizing i ids with
  | nil =>
      simp only [parseContentIDsFrom] at h
      cases h; rfl
  | cons v rest ih =>
      simp only [parseContentIDsFrom] at h
      split at h
      · exact absurd h (by simp)
      · split at h
        · exact absurd h (by simp)
        · rename_i ids' hrest
          cases h
          simpa using ih (i + 1) ids' hrest

/-- The `tenant_id` preamble of `handleBatchUpload` as one function: absent
means `uuid.Nil`, present must parse. -/
def tenantParse (uuidParse : String → Option UUID) (p : ParamMap) : Except String UUID :=
  match p.lookup "tenant_id" with
  | some tv => parseUUIDval uuidParse tv
  | none => .ok uuidNil

theorem handleBatchUpload_eq_items {Reader Content : Type}
    (decodeData : String → Except String Reader)
    (uploadContent : UploadContentRequest Reader → Except String Content)
    (contentIDString : Content → String)
    (uuidParse : String → Option UUID) (maxBatchSize : Nat)
    (p : ParamMap) (order : List Nat) (ownerID tenantID : UUID)
    (howner : parseUUIDval uuidParse (lookupGo p "owner_id") = .ok ownerID)
    (htenant : tenantParse uuidParse p = .ok tenantID) :
    handleBatchUpload decodeData uploadContent contentIDString uuidParse maxBatchSize
        (some p) order
      = handleBatchUploadItems decodeData uploadContent contentIDString maxBatchSize
          ownerID tenantID p order := by
  unfold handleBatchUpload
  dsimp only
  rw [howner]
  dsimp only
  unfold tenantParse at htenant
  rcases hl : p.lookup "tenant_id" with _ | tv
  · rw [hl] at htenant
    cases htenant
    rfl
  · rw [hl] at htenant
    dsimp only at htenant
    dsimp only
    rw [htenant]

theorem handleBatchUploadItems_ok {Reader Content : Type}
    (decodeData : String → Except String Reader)
    (uploadContent : UploadContentRequest Reader → Except String Content)
    (contentIDString : Content → String)
    (maxBatchSize : Nat) (ownerID tenantID : UUID) (p : ParamMap) (order : List Nat)
    (itemsArray : List GoVal) (items : List BatchUploadItem)
    (hitems : p.lookup "items" = some (.varr itemsArray))
    (hN : 0 < itemsArray.length) (hmax : itemsArray.length ≤ maxBatchSize)
    (hvalid : parseBatchItems itemsArray = .ok items) :
    handleBatchUploadItems decodeData uploadContent contentIDString maxBatchSize
        ownerID tenantID p order
      = ((.ok (batchUploadFanout decodeData uploadContent contentIDString ownerID tenantID
            items order).1),
          (batchUploadFanout decodeData uploadContent contentIDString ownerID tenantID
            items order).2) := by
  unfold handleBatchUploadItems
  rw [hitems]
  dsimp only
  rw [if_neg (by omega), if_neg (by omega), hvalid]

theorem handleBatchGetDetails_ok {Details : Type}
    (getContentDetails : UUID → Except String Details)
    (uuidParse : String → Option UUID) (maxBatchSize : Nat)
    (q : ParamMap) (order : List Nat)
    (idsArray : List GoVal) (ids : List UUID)
    (hids : q.lookup "content_ids" = some (.varr idsArray))
    (hN : 0 < idsArray.length) (hmax : idsArray.length ≤ maxBatchSize)
    (hvalid : parseContentIDsFrom uuidParse 0 idsArray = .ok ids) :
    handleBatchGetDetails getContentDetails uuidParse maxBatchSize (some q) order
      = ((.ok (batchGetDetailsFanout getContentDetails ids order).1),
          (batchGetDetailsFanout getContentDetails ids order).2) := by
  unfold handleBatchGetDetails
  dsimp only
  rw [hids]
  dsimp only
  rw [if_neg (by omega), if_neg (by omega), hvalid]

theorem batchUploadFanout_results {Reader Content : Type}
    (decodeData : String → Except String Reader)
    (uploadContent : UploadContentRequest Reader → Except String Content)
    (contentIDString : Content → String)
    (ownerID tenantID : UUID) (items : List BatchUploadItem) {order : List Nat}
    (hcover : ∀ i, i ∈ order ↔ i < items.length) :
    (batchUploadFanout decodeData uploadContent contentIDString ownerID tenantID
        items order).1.results
      = (List.range items.length).map (fun i =>
          (batchUploadUnit decodeData uploadContent contentIDString ownerID tenantID i
            (items.getD i default)).1) := by
  unfold batchUploadFanout
  exact runOrder_eq_map _ default hcover

theorem batchGetDetailsFanout_results {Details : Type}
    (getContentDetails : UUID → Except String Details)
    (ids : List UUID) {order : List Nat}
    (hcover : ∀ i, i ∈ order ↔ i < ids.length) :
    (batchGetDetailsFanout getContentDetails ids order).1.results
      = (List.range ids.length).map (fun i =>
          (batchGetDetailsUnit getContentDetails i (ids.getD i uuidNil)).1) := by
  unfold batchGetDetailsFanout
  exact runOrder_eq_map _ default hcover

theorem batchUploadFanout_spec {Reader Content : Type}
    (decodeData : String → Except String Reader)
    (uploadContent : UploadContentRequest Reader → Except String Content)
    (contentIDString : Content → String)
    (ownerID tenantID : UUID) (items : List BatchUploadItem) {order : List Nat}
    (hcover : ∀ i, i ∈ order ↔ i < items.length) :
    (batchUploadFanout decodeData uploadContent contentIDString ownerID tenantID
        items order).1.results
        = (List.range items.length).map (fun i =>
            (batchUploadUnit decodeData uploadContent contentIDString ownerID tenantID i
              (items.getD i default)).1)
      ∧ (batchUploadFanout decodeData uploadContent contentIDString ownerID tenantID
          items order).1.total = items.length
      ∧ (batchUploadFanout decodeData uploadContent contentIDString ownerID tenantID
          items order).1.successful
        = ((List.range items.length).filter (fun i =>
            (batchUploadUnit decodeData uploadContent contentIDString ownerID tenantID i
              (items.getD i default)).1.success)).length
      ∧ (batchUploadFanout decodeData uploadContent contentIDString ownerID tenantID
          items order).1.failed
        = ((List.range items.length).filter (fun i =>
            !(batchUploadUnit decodeData uploadContent contentIDString ownerID tenantID i
              (items.getD i default)).1.success)).length := by
  have hres := batchUploadFanout_results decodeData uploadContent contentIDString
    ownerID tenantID items hcover
  refine ⟨hres, ?_, ?_, ?_⟩
  · show (runOrder _ order _).length = items.length
    rw [runOrder_length, List.length_replicate]
  · show ((runOrder _ order _).filter _).length = _
    rw [show (runOrder (fun i =>
        (batchUploadUnit decodeData uploadContent contentIDString ownerID tenantID i
          (items.getD i default)).1) order (List.replicate items.length default))
      = (batchUploadFanout decodeData uploadContent contentIDString ownerID tenantID
          items order).1.results from rfl, hres, length_filter_of_map]
  · show ((runOrder _ order _).filter _).length = _
    rw [show (runOrder (fun i =>
        (batchUploadUnit decodeData uploadContent contentIDString ownerID tenantID i
          (items.getD i default)).1) order (List.replicate items.length default))
      = (batchUploadFanout decodeData uploadContent contentIDString ownerID tenantID
          items order).1.results from rfl, hres, length_filter_of_map]

theorem batchGetDetailsFanout_spec {Details : Type}
    (getContentDetails : UUID → Except String Details)
    (ids : List UUID) {order : List Nat}
    (hcover : ∀ i, i ∈ order ↔ i < ids.length) :
    (batchGetDetailsFanout getContentDetails ids order).1.results
        = (List.range ids.length).map (fun i =>
            (batchGetDetailsUnit getContentDetails i (ids.getD i uuidNil)).1)
      ∧ (batchGetDetailsFanout getContentDetails ids order).1.total = ids.length
      ∧ (batchGetDetailsFanout getContentDetails ids order).1.successful
        = ((List.range ids.length).filter (fun i =>
            (batchGetDetailsUnit getContentDetails i (ids.getD i uuidNil)).1.error == "")).length
      ∧ (batchGetDetailsFanout getContentDetails ids order).1.failed
        = ((List.range ids.length).filter (fun i =>
            !((batchGetDetailsUnit getContentDetails i (ids.getD i uuidNil)).1.error == ""))).length := by
  have hres := batchGetDetailsFanout_results getContentDetails ids hcover
  refine ⟨hres, ?_, ?_, ?_⟩
  · show (runOrder _ order _).length = ids.length
    rw [runOrder_length, List.length_replicate]
  · show ((runOrder _ order _).filter _).length = _
    rw [show (runOrder (fun i =>
        (batchGetDetailsUnit getContentDetails i (ids.getD i uuidNil)).1) order
          (List.replicate ids.length default))
      = (batchGetDetailsFanout getContentDetails ids order).1.results from rfl, hres,
      length_filter_of_map]
  · show ((runOrder _ order _).filter _).length = _
    rw [show (runOrder (fun i =>
        (batchGetDetailsUnit getContentDetails i (ids.getD i uuidNil)).1) order
          (List.replicate ids.length default))
      = (batchGetDetailsFanout getContentDetails ids order).1.results from rfl, hres,
      length_filter_of_map]

/-! ### Claim theorems for the batch engine -/

/-- C1: for every `batch_upload` or `batch_get_details` request with N items
(0 < N ≤ MaxBatchSize) whose items all pass per-item validation, the
handler's response carries a results array of length exactly N whose element
at position i has index field i, for every i < N, regardless of the
completion order of the concurrent units and of which items succeeded or
failed. -/
theorem batch_results_length_and_index
    (Reader Content Details : Type)
    (decodeData : String → Except String Reader)
    (uploadContent : UploadContentRequest Reader → Except String Content)
    (contentIDString : Content → String)
    (getContentDetails : UUID → Except String Details)
    (uuidParse : String → Option UUID) (maxBatchSize : Nat)
    (p q : ParamMap) (order order2 : List Nat)
    (itemsArray idsArray : List GoVal)
    (items : List BatchUploadItem) (ids : List UUID)
    (ownerID tenantID : UUID)
    (howner : parseUUIDval uuidParse (lookupGo p "owner_id") = .ok ownerID)
    (htenant : tenantParse uuidParse p = .ok tenantID)
    (hitems : p.lookup "items" = some (.varr itemsArray))
    (hN : 0 < itemsArray.length) (hmax : itemsArray.length ≤ maxBatchSize)
    (hvalid : parseBatchItems itemsArray = .ok items)
    (horder : ∀ i, i ∈ order ↔ i < itemsArray.length)
    (hids : q.lookup "content_ids" = some (.varr idsArray))
    (hN2 : 0 < idsArray.length) (hmax2 : idsArray.length ≤ maxBatchSize)
    (hvalid2 : parseContentIDsFrom uuidParse 0 idsArray = .ok ids)
    (horder2 : ∀ i, i ∈ order2 ↔ i < idsArray.length) :
    (∃ resp calls,
        handleBatchUpload decodeData uploadContent contentIDString uuidParse maxBatchSize
            (some p) order = (.ok resp, calls)
          ∧ resp.results.length = itemsArray.length
          ∧ ∀ i, i < itemsArray.length →
              ∃ r, resp.results[i]? = some r ∧ r.index = i)
      ∧ (∃ resp calls,
          handleBatchGetDetails getContentDetails uuidParse maxBatchSize (some q) order2
            = (.ok resp, calls)
          ∧ resp.results.length = idsArray.length
          ∧ ∀ i, i < idsArray.length →
              ∃ r, resp.results[i]? = some r ∧ r.index = i) := by
  have hlen : items.length = itemsArray.length :=
    parseBatchItemsFrom_length 0 itemsArray items hvalid
  have hlen2 : ids.length = idsArray.length :=
    parseContentIDsFrom_length uuidParse 0 idsArray ids hvalid2
  have hcov : ∀ i, i ∈ order ↔ i < items.length := by
    intro i; rw [hlen]; exact horder i
  have hcov2 : ∀ i, i ∈ order2 ↔ i < ids.length := by
    intro i; rw [hlen2]; exact horder2 i
  obtain ⟨hres, htot, hsucc, hfail⟩ := batchUploadFanout_spec decodeData uploadContent
    contentIDString ownerID tenantID items hcov
  obtain ⟨hres2, htot2, hsucc2, hfail2⟩ := batchGetDetailsFanout_spec getContentDetails
    ids hcov2
  constructor
  · refine ⟨(batchUploadFanout decodeData uploadContent contentIDString ownerID tenantID
        items order).1,
      (batchUploadFanout decodeData uploadContent contentIDString ownerID tenantID
        items order).2, ?_, ?_, ?_⟩
    · rw [handleBatchUpload_eq_items decodeData uploadContent contentIDString uuidParse
        maxBatchSize p order ownerID tenantID howner htenant,
        handleBatchUploadItems_ok decodeData uploadContent contentIDString maxBatchSize
          ownerID tenantID p order itemsArray items hitems hN hmax hvalid]
    · rw [hres, List.length_map, List.length_range, hlen]
    · intro i hi
      refine ⟨(batchUploadUnit decodeData uploadContent contentIDString ownerID tenantID i
          (items.getD i default)).1, ?_, ?_⟩
      · rw [hres, List.getElem?_map, List.getElem?_range (by omega)]
        rfl
      · exact batchUploadUnit_index decodeData uploadContent contentIDString ownerID
          tenantID i (items.getD i default)
  · refine ⟨(batchGetDetailsFanout getContentDetails ids order2).1,
      (batchGetDetailsFanout getContentDetails ids order2).2, ?_, ?_, ?_⟩
    · rw [handleBatchGetDetails_ok getContentDetails uuidParse maxBatchSize q order2
        idsArray ids hids hN2 hmax2 hvalid2]
    · rw [hres2, List.length_map, List.length_range, hlen2]
    · intro i hi
      refine ⟨(batchGetDetailsUnit getContentDetails i (ids.getD i uuidNil)).1, ?_, ?_⟩
      · rw [hres2, List.getElem?_map, List.getElem?_range (by omega)]
        rfl
      · exact batchGetDetailsUnit_index getContentDetails i (ids.getD i uuidNil)

/-- C2: for both batch handlers, an empty items (resp. content_ids) array is
rejected with the shape validation error and an array longer than
MaxBatchSize with the size-limit error, and in both cases no call to the
backend service is made (the call log of the returned pair is empty). -/
theorem batch_empty_and_oversize_rejected
    (Reader Content Details : Type)
    (decodeData : String → Except String Reader)
    (uploadContent : UploadContentRequest Reader → Except String Content)
    (contentIDString : Content → String)
    (getContentDetails : UUID → Except String Details)
    (uuidParse : String → Option UUID) (maxBatchSize : Nat)
    (p q : ParamMap) (order order2 : List Nat)
    (itemsArray idsArray : List GoVal)
    (ownerID tenantID : UUID)
    (howner : parseUUIDval uuidParse (lookupGo p "owner_id") = .ok ownerID)
    (htenant : tenantParse uuidParse p = .ok tenantID)
    (hitems : p.lookup "items" = some (.varr itemsArray))
    (hids : q.lookup "content_ids" = some (.varr idsArray)) :
    (itemsArray.length = 0 →
        handleBatchUpload decodeData uploadContent contentIDString uuidParse maxBatchSize
            (some p) order
          = (.error (.validation "items" "items array cannot be empty"), []))
    ∧ (itemsArray.length > maxBatchSize →
        handleBatchUpload decodeData uploadContent contentIDString uuidParse maxBatchSize
            (some p) order
          = (.error (.validation "items"
              ("batch size " ++ toString itemsArray.length ++ " exceeds maximum "
                ++ toString maxBatchSize)), []))
    ∧ (idsArray.length = 0 →
        handleBatchGetDetails getContentDetails uuidParse maxBatchSize (some q) order2
          = (.error (.validation "content_ids" "content_ids array cannot be empty"), []))
    ∧ (idsArray.length > maxBatchSize →
        handleBatchGetDetails getContentDetails uuidParse maxBatchSize (some q) order2
          = (.error (.validation "content_ids"
              ("batch size " ++ toString idsArray.length ++ " exceeds maximum "
                ++ toString maxBatchSize)), [])) := by
  refine ⟨?_, ?_, ?_, ?_⟩
  · intro h0
    rw [handleBatchUpload_eq_items decodeData uploadContent contentIDString uuidParse
      maxBatchSize p order ownerID tenantID howner htenant]
    unfold handleBatchUploadItems
    rw [hitems]
    dsimp only
    rw [if_pos h0]
  · intro hbig
    rw [handleBatchUpload_eq_items decodeData uploadContent contentIDString uuidParse
      maxBatchSize p order ownerID tenantID howner htenant]
    unfold handleBatchUploadItems
    rw [hitems]
    dsimp only
    rw [if_neg (by omega), if_pos hbig]
  · intro h0
    unfold handleBatchGetDetails
    dsimp only
    rw [hids]
    dsimp only
    rw [if_pos h0]
  · intro hbig
    unfold handleBatchGetDetails
    dsimp only
    rw [hids]
    dsimp only
    rw [if_neg (by omega), if_pos hbig]

/-- C3: for every batch request that reaches execution, each of the N units
receives its own outcome (the slot at i is exactly the outcome computed from
item i alone, whatever the other units did), and the aggregates satisfy
total = N, successful = number of success outcomes, failed = number of
failure outcomes, hence successful + failed = total. -/
theorem batch_units_complete_and_counts
    (Reader Content Details : Type)
    (decodeData : String → Except String Reader)
    (uploadContent : UploadContentRequest Reader → Except String Content)
    (contentIDString : Content → String)
    (getContentDetails : UUID → Except String Details)
    (uuidParse : String → Option UUID) (maxBatchSize : Nat)
    (p q : ParamMap) (order order2 : List Nat)
    (itemsArray idsArray : List GoVal)
    (items : List BatchUploadItem) (ids : List UUID)
    (ownerID tenantID : UUID)
    (howner : parseUUIDval uuidParse (lookupGo p "owner_id") = .ok ownerID)
    (htenant : tenantParse uuidParse p = .ok tenantID)
    (hitems : p.lookup "items" = some (.varr itemsArray))
    (hN : 0 < itemsArray.length) (hmax : itemsArray.length ≤ maxBatchSize)
    (hvalid : parseBatchItems itemsArray = .ok items)
    (horder : ∀ i, i ∈ order ↔ i < itemsArray.length)
    (hids : q.lookup "content_ids" = some (.varr idsArray))
    (hN2 : 0 < idsArray.length) (hmax2 : idsArray.length ≤ maxBatchSize)
    (hvalid2 : parseContentIDsFrom uuidParse 0 idsArray = .ok ids)
    (horder2 : ∀ i, i ∈ order2 ↔ i < idsArray.length) :
    (∃ resp calls,
        handleBatchUpload decodeData uploadContent contentIDString uuidParse maxBatchSize
            (some p) order = (.ok resp, calls)
          ∧ resp.total = itemsArray.length
          ∧ (∀ i, i < itemsArray.length →
              resp.results[i]? = some (batchUploadUnit decodeData uploadContent
                contentIDString ownerID tenantID i (items.getD i default)).1)
          ∧ resp.successful = ((List.range items.length).filter (fun i =>
              (batchUploadUnit decodeData uploadContent contentIDString ownerID tenantID i
                (items.getD i default)).1.success)).length
          ∧ resp.failed = ((List.range items.length).filter (fun i =>
              !(batchUploadUnit decodeData uploadContent contentIDString ownerID tenantID i
                (items.getD i default)).1.success)).length
          ∧ resp.successful + resp.failed = resp.total)
      ∧ (∃ resp calls,
          handleBatchGetDetails getContentDetails uuidParse maxBatchSize (some q) order2
            = (.ok resp, calls)
          ∧ resp.total = idsArray.length
          ∧ (∀ i, i < idsArray.length →
              resp.results[i]? = some (batchGetDetailsUnit getContentDetails i
                (ids.getD i uuidNil)).1)
          ∧ resp.successful = ((List.range ids.length).filter (fun i =>
              (batchGetDetailsUnit getContentDetails i (ids.getD i uuidNil)).1.error
                == "")).length
          ∧ resp.failed = ((List.range ids.length).filter (fun i =>
              !((batchGetDetailsUnit getContentDetails i (ids.getD i uuidNil)).1.error
                == ""))).length
          ∧ resp.successful + resp.failed = resp.total) := by
  have hlen : items.length = itemsArray.length :=
    parseBatchItemsFrom_length 0 itemsArray items hvalid
  have hlen2 : ids.length = idsArray.length :=
    parseContentIDsFrom_length uuidParse 0 idsArray ids hvalid2
  have hcov : ∀ i, i ∈ order ↔ i < items.length := by
    intro i; rw [hlen]; exact horder i
  have hcov2 : ∀ i, i ∈ order2 ↔ i < ids.length := by
    intro i; rw [hlen2]; exact horder2 i
  obtain ⟨hres, htot, hsucc, hfail⟩ := batchUploadFanout_spec decodeData uploadContent
    contentIDString ownerID tenantID items hcov
  obtain ⟨hres2, htot2, hsucc2, hfail2⟩ := batchGetDetailsFanout_spec getContentDetails
    ids hcov2
  constructor
  · refine ⟨(batchUploadFanout decodeData uploadContent contentIDString ownerID tenantID
        items order).1,
      (batchUploadFanout decodeData uploadContent contentIDString ownerID tenantID
        items order).2, ?_, ?_, ?_, hsucc, hfail, ?_⟩
    · rw [handleBatchUpload_eq_items decodeData uploadContent contentIDString uuidParse
        maxBatchSize p order ownerID tenantID howner htenant,
        handleBatchUploadItems_ok decodeData uploadContent contentIDString maxBatchSize
          ownerID tenantID p order itemsArray items hitems hN hmax hvalid]
    · rw [htot, hlen]
    · intro i hi
      rw [hres, List.getElem?_map, List.getElem?_range (by omega)]
      rfl
    · rw [hsucc, hfail, htot]
      have hsplit := length_filter_add_length_filter_not (fun i =>
        (batchUploadUnit decodeData uploadContent contentIDString ownerID tenantID i
          (items.getD i default)).1.success) (List.range items.length)
      simpa using hsplit
  · refine ⟨(batchGetDetailsFanout getContentDetails ids order2).1,
      (batchGetDetailsFanout getContentDetails ids order2).2, ?_, ?_, ?_, hsucc2, hfail2, ?_⟩
    · rw [handleBatchGetDetails_ok getContentDetails uuidParse maxBatchSize q order2
        idsArray ids hids hN2 hmax2 hvalid2]
    · rw [htot2, hlen2]
    · intro i hi
      rw [hres2, List.getElem?_map, List.getElem?_range (by omega)]
      rfl
    · rw [hsucc2, hfail2, htot2]
      have hsplit := length_filter_add_length_filter_not (fun i =>
        (batchGetDetailsUnit getContentDetails i (ids.getD i uuidNil)).1.error == "")
        (List.range ids.length)
      simpa using hsplit

/-! ### Concrete witness fixtures -/

/-- A concrete `uuid.Parse` accepting two fixed identifiers. -/
def wUUIDParse : String → Option UUID := fun s =>
  if s = "owner-uuid" then some s else if s = "cid-uuid" then some s else none

/-- A concrete decoder failing on the literal `"bad"`. -/
def wDecode : String → Except String Unit := fun s =>
  if s = "bad" then .error "bad data" else .ok ()

/-- A concrete upload service failing on items named `"fail"`. -/
def wUpload : UploadContentRequest Unit → Except String Unit := fun r =>
  if r.name = "fail" then .error "boom" else .ok ()

def wContentID : Unit → String := fun _ => "c1"

def wGetDetails : UUID → Except String Unit := fun _ => .ok ()

def wItemsArrayU : List GoVal :=
  [.vobj [("name", .vstr "a"), ("data", .vstr "d1")],
   .vobj [("name", .vstr "fail"), ("data", .vstr "d2")]]

def wItems : List BatchUploadItem := [{ name := "a", data := "d1" }, { name := "fail", data := "d2" }]

def wParamsUpload : ParamMap := [("owner_id", .vstr "owner-uuid"), ("items", .varr wItemsArrayU)]

def wIdsArray : List GoVal := [.vstr "cid-uuid"]

def wIds : List UUID := ["cid-uuid"]

def wParamsDetails : ParamMap := [("content_ids", .varr wIdsArray)]

def wParamsUploadEmpty : ParamMap := [("owner_id", .vstr "owner-uuid"), ("items", .varr [])]

def wParamsUploadBig : ParamMap :=
  [("owner_id", .vstr "owner-uuid"),
   ("items", .varr (List.replicate 3 (.vobj [("name", .vstr "a"), ("data", .vstr "d")])))]

def wParamsDetailsEmpty : ParamMap := [("content_ids", .varr [])]

def wParamsDetailsBig : ParamMap :=
  [("content_ids", .varr (List.replicate 3 (.vstr "cid-uuid")))]

theorem wCover2 : ∀ i, i ∈ [1, 0] ↔ i < 2 := by
  intro i
  simp only [List.mem_cons, List.not_mem_nil, or_false]
  omega

theorem wCover1 : ∀ i, i ∈ [0] ↔ i < 1 := by
  intro i
  simp only [List.mem_cons, List.not_mem_nil, or_false]
  omega

/-- Witness for C1: a two-item `batch_upload` (second item fails at the
service) joined in reversed completion order, and a one-id
`batch_get_details`. -/
theorem batch_results_length_and_index_witness :
    (∃ resp calls,
        handleBatchUpload wDecode wUpload wContentID wUUIDParse 10
            (some wParamsUpload) [1, 0] = (.ok resp, calls)
          ∧ resp.results.length = 2
          ∧ ∀ i, i < 2 → ∃ r, resp.results[i]? = some r ∧ r.index = i)
      ∧ (∃ resp calls,
          handleBatchGetDetails wGetDetails wUUIDParse 10 (some wParamsDetails) [0]
            = (.ok resp, calls)
          ∧ resp.results.length = 1
          ∧ ∀ i, i < 1 → ∃ r, resp.results[i]? = some r ∧ r.index = i) :=
  batch_results_length_and_index Unit Unit Unit wDecode wUpload wContentID wGetDetails
    wUUIDParse 10 wParamsUpload wParamsDetails [1, 0] [0] wItemsArrayU wIdsArray wItems wIds
    "owner-uuid" uuidNil rfl rfl rfl (by decide) (by decide) rfl wCover2 rfl (by decide)
    (by decide) rfl wCover1

/-- Witness for C2: empty and oversize batches for both handlers, with
MaxBatchSize 2; each is rejected and no service call is logged. -/
theorem batch_empty_and_oversize_rejected_witness :
    (handleBatchUpload wDecode wUpload wContentID wUUIDParse 2
        (some wParamsUploadEmpty) [] = (.error (.validation "items" "items array cannot be empty"), []))
    ∧ (handleBatchUpload wDecode wUpload wContentID wUUIDParse 2
        (some wParamsUploadBig) []
        = (.error (.validation "items"
            ("batch size " ++ toString (3 : Nat) ++ " exceeds maximum "
              ++ toString (2 : Nat))), []))
    ∧ (handleBatchGetDetails wGetDetails wUUIDParse 2 (some wParamsDetailsEmpty) []
        = (.error (.validation "content_ids" "content_ids array cannot be empty"), []))
    ∧ (handleBatchGetDetails wGetDetails wUUIDParse 2 (some wParamsDetailsBig) []
        = (.error (.validation "content_ids"
            ("batch size " ++ toString (3 : Nat) ++ " exceeds maximum "
              ++ toString (2 : Nat))), [])) := by
  obtain ⟨he, _, _, _⟩ := batch_empty_and_oversize_rejected Unit Unit Unit wDecode wUpload
    wContentID wGetDetails wUUIDParse 2 wParamsUploadEmpty wParamsDetailsEmpty [] []
    [] [] "owner-uuid" uuidNil rfl rfl rfl rfl
  obtain ⟨_, hb, _, _⟩ := batch_empty_and_oversize_rejected Unit Unit Unit wDecode wUpload
    wContentID wGetDetails wUUIDParse 2 wParamsUploadBig wParamsDetailsBig [] []
    (List.replicate 3 (.vobj [("name", .vstr "a"), ("data", .vstr "d")]))
    (List.replicate 3 (.vstr "cid-uuid")) "owner-uuid" uuidNil rfl rfl rfl rfl
  obtain ⟨_, _, he2, _⟩ := batch_empty_and_oversize_rejected Unit Unit Unit wDecode wUpload
    wContentID wGetDetails wUUIDParse 2 wParamsUploadEmpty wParamsDetailsEmpty [] []
    [] [] "owner-uuid" uuidNil rfl rfl rfl rfl
  obtain ⟨_, _, _, hb2⟩ := batch_empty_and_oversize_rejected Unit Unit Unit wDecode wUpload
    wContentID wGetDetails wUUIDParse 2 wParamsUploadBig wParamsDetailsBig [] []
    (List.replicate 3 (.vobj [("name", .vstr "a"), ("data", .vstr "d")]))
    (List.replicate 3 (.vstr "cid-uuid")) "owner-uuid" uuidNil rfl rfl rfl rfl
  exact ⟨he rfl, hb (by decide), he2 rfl, hb2 (by decide)⟩

/-- Witness for C3: the two-item batch of the C1 witness has one success
and one failure, and the aggregates add up. -/
theorem batch_units_complete_and_counts_witness :
    ∃ resp calls,
      handleBatchUpload wDecode wUpload wContentID wUUIDParse 10
          (some wParamsUpload) [1, 0] = (.ok resp, calls)
        ∧ resp.total = 2 ∧ resp.successful + resp.failed = resp.total := by
  obtain ⟨⟨resp, calls, heq, htot, _, _, _, hsum⟩, _⟩ := batch_units_complete_and_counts
    Unit Unit Unit wDecode wUpload wContentID wGetDetails wUUIDParse 10 wParamsUpload
    wParamsDetails [1, 0] [0] wItemsArrayU wIdsArray wItems wIds "owner-uuid" uuidNil
    rfl rfl rfl (by decide) (by decide) rfl wCover2 rfl (by decide) (by decide) rfl wCover1
  exact ⟨resp, calls, heq, htot, hsum⟩

/-! ### Claim theorems for the transport gate -/

theorem any_beq_iff_mem (s : String) (l : List String) :
    (l.any fun v => s == v) = true ↔ s ∈ l := by
  simp only [List.any_eq_true, beq_iff_eq]
  constructor
  · rintro ⟨v, hv, rfl⟩; exact hv
  · intro h; exact ⟨s, h, rfl⟩

/-- C4 counterexample: a request with no MCP-Protocol-Version header is
served with the defaulted version `"2025-03-26"`, although the oldest
supported version is `"2024-11-05"`; the code does not default to the
oldest supported version. -/
theorem protocol_version_default_counterexample :
    mcpGate { host := "localhost", authEnabled := false } none
        { origin := "", protocolVersion := "", sessionID := "", xAPIKey := "", authz := "" }
      = .serve "2025-03-26" ""
    ∧ supportedVersions.head? = some "2024-11-05"
    ∧ ("2025-03-26" : String) ≠ "2024-11-05" := by
  refine ⟨rfl, rfl, by decide⟩

/-- C4 amended: when the Origin gate passes and authentication is disabled,
an absent protocol version defaults to `"2025-03-26"` (not the oldest
supported version), and the request is handed on toward session creation
iff the resulting version is in the allow-list; any other version is
rejected with the unsupported-version response before the hand-off. -/
theorem protocol_version_negotiation (cfg : GateConfig) (auth : Option (String → Bool))
    (r : GateRequest) (hOrigin : originRejected cfg r = false)
    (hAuth : cfg.authEnabled = false) :
    ((if r.protocolVersion == "" then "2025-03-26" else r.protocolVersion) ∈ supportedVersions →
        mcpGate cfg auth r
          = .serve (if r.protocolVersion == "" then "2025-03-26" else r.protocolVersion)
              r.sessionID)
    ∧ ((if r.protocolVersion == "" then "2025-03-26" else r.protocolVersion) ∉ supportedVersions →
        mcpGate cfg auth r = .badVersion) := by
  unfold mcpGate mcpGateAfterOrigin
  rw [hOrigin, hAuth]
  constructor
  · intro hmem
    have hv := (any_beq_iff_mem _ supportedVersions).mpr hmem
    simp [hv]
    simpa using hmem
  · intro hmem
    have hv : (supportedVersions.any fun v =>
        (if r.protocolVersion == "" then "2025-03-26" else r.protocolVersion) == v) = false := by
      rcases h : supportedVersions.any fun v =>
          (if r.protocolVersion == "" then "2025-03-26" else r.protocolVersion) == v
      · rfl
      · exact absurd ((any_beq_iff_mem _ supportedVersions).mp h) hmem
    simp [hv]
    simpa using hmem

/-- Witness for the amended C4: a loop-back request with version
`"2024-11-05"` is served, one with version `"1999-01-01"` is rejected. -/
theorem protocol_version_negotiation_witness :
    mcpGate { host := "localhost", authEnabled := false } none
        { origin := "http://localhost:3000", protocolVersion := "2024-11-05",
          sessionID := "s1", xAPIKey := "", authz := "" }
      = .serve "2024-11-05" "s1"
    ∧ mcpGate { host := "localhost", authEnabled := false } none
        { origin := "", protocolVersion := "1999-01-01",
          sessionID := "", xAPIKey := "", authz := "" }
      = .badVersion := by
  have h1 := protocol_version_negotiation { host := "localhost", authEnabled := false } none
    { origin := "http://localhost:3000", protocolVersion := "2024-11-05",
      sessionID := "s1", xAPIKey := "", authz := "" } (by decide) rfl
  have h2 := protocol_version_negotiation { host := "localhost", authEnabled := false } none
    { origin := "", protocolVersion := "1999-01-01",
      sessionID := "", xAPIKey := "", authz := "" } (by decide) rfl
  exact ⟨h1.1 (by decide), h2.2 (by decide)⟩

theorem mcpGateAfterOrigin_ne_forbidden (cfg : GateConfig) (auth : Option (String → Bool))
    (r : GateRequest) : mcpGateAfterOrigin cfg auth r ≠ .forbidden := by
  unfold mcpGateAfterOrigin
  dsimp only
  split <;> try simp
  all_goals try (split <;> try simp)
  all_goals try (split <;> try simp)
  all_goals try (split <;> try simp)
  all_goals try (split <;> try simp)

/-- C6: on a loop-back binding (host `"localhost"` or `"127.0.0.1"`), a
request carrying a non-empty Origin header is rejected with Forbidden,
before any dispatch, exactly when the origin is not prefixed by
`"http://localhost"` or `"http://127.0.0.1"`. -/
theorem origin_loopback_gate (cfg : GateConfig) (auth : Option (String → Bool))
    (r : GateRequest) (hHost : cfg.host = "localhost" ∨ cfg.host = "127.0.0.1")
    (hOrig : r.origin ≠ "") :
    mcpGate cfg auth r = .forbidden ↔ loopbackOrigin r.origin = false := by
  have hrej : originRejected cfg r = !(loopbackOrigin r.origin) := by
    unfold originRejected
    rcases hHost with h | h <;> simp [h, hOrig]
  constructor
  · intro hf
    by_contra hno
    have hlb : loopbackOrigin r.origin = true := by
      cases hl : loopbackOrigin r.origin
      · exact absurd hl hno
      · rfl
    rw [hlb] at hrej
    have hrj : originRejected cfg r = false := by rw [hrej]; rfl
    unfold mcpGate at hf
    rw [hrj, if_neg (by simp)] at hf
    exact mcpGateAfterOrigin_ne_forbidden cfg auth r hf
  · intro hlb
    rw [hlb] at hrej
    have hrj : originRejected cfg r = true := by rw [hrej]; rfl
    unfold mcpGate
    rw [hrj, if_pos rfl]

/-- Witness for C6: a non-loop-back origin on a loop-back binding is
rejected with Forbidden. -/
theorem origin_loopback_gate_witness :
    mcpGate { host := "127.0.0.1", authEnabled := false } none
        { origin := "http://evil.example", protocolVersion := "",
          sessionID := "", xAPIKey := "", authz := "" }
      = .forbidden := by
  have h := origin_loopback_gate { host := "127.0.0.1", authEnabled := false } none
    { origin := "http://evil.example", protocolVersion := "",
      sessionID := "", xAPIKey := "", authz := "" } (Or.inr rfl) (by decide)
  exact h.mpr (by decide)

/-! ### Claim theorems for MapError -/

/-- C5 counterexample: the backend error message `"connection refused"`
matches none of the classification patterns, so `MapError` returns the
original error unchanged with no sentinel category attached: the error
escapes without a category. -/
theorem map_error_uncategorized_counterexample :
    MapError (some "connection refused") = some ("connection refused", none) := by
  decide

/-- C5 amended: `MapError` never drops a non-nil error and keeps its
original message, but it attaches a taxonomy category exactly when the
message matches one of the classification patterns; otherwise the error is
returned unchanged, without a category. -/
theorem map_error_category_iff (e : String) :
    ∃ cat, MapError (some e) = some (e, cat)
      ∧ (cat.isSome = true
          ↔ (errContains e "not found" = true ∨ errContains e "validation" = true
            ∨ errContains e "invalid" = true ∨ errContains e "storage" = true
            ∨ errContains e "blob" = true ∨ errContains e "s3" = true
            ∨ errContains e "unauthorized" = true ∨ errContains e "authentication" = true
            ∨ errContains e "forbidden" = true ∨ errContains e "permission" = true)) := by
  by_cases h1 : errContains e "not found" = true
  · exact ⟨some .notFoundCat, by simp [MapError, h1], by simp [h1]⟩
  · by_cases h2 : (errContains e "validation" || errContains e "invalid") = true
    · refine ⟨some .validationCat, by simp [MapError, h1, h2], ?_⟩
      simp only [Bool.or_eq_true] at h2
      simp [h2]
      tauto
    · by_cases h3 : (errContains e "storage" || errContains e "blob"
          || errContains e "s3") = true
      · refine ⟨some .storageCat, by simp [MapError, h1, h2, h3], ?_⟩
        simp only [Bool.or_eq_true] at h3
        simp
        tauto
      · by_cases h4 : (errContains e "unauthorized" || errContains e "authentication") = true
        · refine ⟨some .unauthorizedCat, by simp [MapError, h1, h2, h3, h4], ?_⟩
          simp only [Bool.or_eq_true] at h4
          simp
          tauto
        · by_cases h5 : (errContains e "forbidden" || errContains e "permission") = true
          · refine ⟨some .forbiddenCat, by simp [MapError, h1, h2, h3, h4, h5], ?_⟩
            simp only [Bool.or_eq_true] at h5
            simp
            tauto
          · refine ⟨none, by simp [MapError, h1, h2, h3, h4, h5], ?_⟩
            simp only [Bool.or_eq_true, not_or] at h1 h2 h3 h4 h5
            simp only [Option.isSome_none, Bool.false_eq_true, false_iff]
            push_neg
            refine ⟨h1, ?_⟩
            constructor
            · exact fun hc => h2.1 hc
            constructor
            · exact fun hc => h2.2 hc
            constructor
            · exact fun hc => h3.1.1 hc
            constructor
            · exact fun hc => h3.1.2 hc
            constructor
            · exact fun hc => h3.2 hc
            constructor
            · exact fun hc => h4.1 hc
            constructor
            · exact fun hc => h4.2 hc
            constructor
            · exact fun hc => h5.1 hc
            · exact fun hc => h5.2 hc

/-- Witness for the amended C5: a message matching the `"not found"`
pattern receives a category. -/
theorem map_error_category_iff_witness :
    ∃ cat, MapError (some "content not found") = some ("content not found", cat)
      ∧ cat.isSome = true := by
  obtain ⟨cat, h1, h2⟩ := map_error_category_iff "content not found"
  exact ⟨cat, h1, h2.mpr (Or.inl (by decide))⟩

/-! ### Claim theorem for credential parsing -/

theorem splitNChars_length_le (sep : Char) : ∀ (n : Nat) (cs : List Char),
    (splitNChars sep cs n).length ≤ n
  | 0, cs => by simp [splitNChars]
  | 1, cs => by simp [splitNChars]
  | (n + 2), cs => by
      unfold splitNChars
      cases h : breakAtSep sep cs with
      | none => simp
      | some pr =>
          simp only [List.length_cons]
          have hrec := splitNChars_length_le sep n.succ pr.2
          omega

/-- C8: the configured credential string is split into at most four
colon-delimited fields; a key record is produced exactly when at least two
fields are present and the second is a valid UUID; the record's key and
owner are the first two fields; the tenant identity is attached only when
the third field is present, non-empty and a valid UUID; the expiration only
when the fourth field is present, non-empty and RFC3339-parseable. -/
theorem api_key_credential_format (Time : Type) (uuidParse : String → Option UUID)
    (rfc3339Parse : String → Option Time) (value : String) :
    (goSplitN value ':' 4).length ≤ 4
    ∧ ((parseAPIKeyEnv uuidParse rfc3339Parse value).isSome = true
        ↔ 2 ≤ (goSplitN value ':' 4).length
          ∧ (uuidParse ((goSplitN value ':' 4).getD 1 "")).isSome = true)
    ∧ ∀ ki, parseAPIKeyEnv uuidParse rfc3339Parse value = some ki →
        ki.key = (goSplitN value ':' 4).getD 0 ""
        ∧ some ki.ownerID = uuidParse ((goSplitN value ':' 4).getD 1 "")
        ∧ ki.tenantID
          = (if 2 < (goSplitN value ':' 4).length ∧ (goSplitN value ':' 4).getD 2 "" ≠ ""
              then (uuidParse ((goSplitN value ':' 4).getD 2 "")).getD uuidNil
              else uuidNil)
        ∧ ki.expiresAt
          = (if 3 < (goSplitN value ':' 4).length ∧ (goSplitN value ':' 4).getD 3 "" ≠ ""
              then rfc3339Parse ((goSplitN value ':' 4).getD 3 "")
              else none) := by
  refine ⟨?_, ?_, ?_⟩
  · show ((splitNChars ':' value.data 4).map _).length ≤ 4
    rw [List.length_map]
    exact splitNChars_length_le ':' 4 value.data
  · unfold parseAPIKeyEnv
    dsimp only
    split
    · rename_i hlt
      simp only [Option.isSome_none, Bool.false_eq_true, false_iff, not_and]
      intro hge
      omega
    · rename_i hge
      cases hup : uuidParse ((goSplitN value ':' 4).getD 1 "") with
      | none => simp [hup]
      | some oid =>
          simp only [hup, Option.isSome_some, true_iff]
          exact ⟨by omega, trivial⟩
  · intro ki hki
    unfold parseAPIKeyEnv at hki
    dsimp only at hki
    split at hki
    · exact absurd hki (by simp)
    · rename_i hge
      cases hup1 : uuidParse ((goSplitN value ':' 4).getD 1 "") with
      | none => rw [hup1] at hki; exact absurd hki (by simp)
      | some oid =>
          rw [hup1] at hki
          dsimp only at hki
          by_cases h2 : 2 < (goSplitN value ':' 4).length ∧ (goSplitN value ':' 4).getD 2 "" ≠ ""
          all_goals by_cases h3 : 3 < (goSplitN value ':' 4).length
              ∧ (goSplitN value ':' 4).getD 3 "" ≠ ""
          all_goals cases hup2 : uuidParse ((goSplitN value ':' 4).getD 2 "")
          all_goals cases hrp : rfc3339Parse ((goSplitN value ':' 4).getD 3 "")
          all_goals first
            | rw [if_pos h2] at hki
            | rw [if_neg h2] at hki
          all_goals try rw [hup2] at hki
          all_goals try dsimp only at hki
          all_goals first
            | rw [if_pos h3] at hki
            | rw [if_neg h3] at hki
          all_goals try rw [hrp] at hki
          all_goals try dsimp only at hki
          all_goals injection hki with hki
          all_goals subst hki
          all_goals refine ⟨rfl, rfl, ?_, ?_⟩
          all_goals try rw [if_pos h2]
          all_goals try rw [if_neg h2]
          all_goals try rw [if_pos h3]
          all_goals try rw [if_neg h3]
          all_goals rfl

/-- Witness for C8: a concrete credential `"key1:owner-uuid::"` parses to a
record with key `"key1"`, the given owner, no tenant, no expiry. -/
theorem api_key_credential_format_witness :
    (parseAPIKeyEnv wUUIDParse (fun _ => (none : Option Unit)) "key1:owner-uuid::").isSome = true
    ∧ ∀ ki, parseAPIKeyEnv wUUIDParse (fun _ => (none : Option Unit)) "key1:owner-uuid::"
        = some ki → ki.key = "key1" ∧ ki.tenantID = uuidNil ∧ ki.expiresAt = none := by
  have h := api_key_credential_format Unit wUUIDParse (fun _ => none) "key1:owner-uuid::"
  constructor
  · exact h.2.1.mpr ⟨by decide, by decide⟩
  · intro ki hki
    obtain ⟨hk, _, ht, he⟩ := h.2.2 ki hki
    refine ⟨?_, ?_, ?_⟩
    · rw [hk]; decide
    · rw [ht]; decide
    · rw [he]; decide

/-! ### Single-item handlers (pkg/mcpserver/handlers.go) -/

/-- The fields of `simplecontent.Content` that the handlers read and
write; timestamps are abstract ticks. -/
structure Content where
  id : UUID
  ownerID : UUID
  tenantID : UUID
  name : String
  description : String
  status : String
  derivationType : String
  createdAt : Nat
  updatedAt : Nat
deriving DecidableEq, Repr

/-- `s.decodeData` from `server.go`: a non-string is a validation error; a
URL is fetched (an external effect, the oracle `download`); anything else
is base64-decoded (the oracle `decode64`, failure being invalid base64). -/
def sDecodeData {Reader : Type} (decode64 : String → Except String Reader)
    (download : String → Except MCPError Reader) (v : GoVal) : Except MCPError Reader :=
  match v with
  | .vstr s =>
      if goHasPrefix s "http://" || goHasPrefix s "https://" then download s
      else
        match decode64 s with
        | .error e => .error (.validation "data" ("invalid base64: " ++ e))
        | .ok reader => .ok reader
  | _ => .error (.validation "data" "must be a string")

/-- The payload `handleUploadContent` returns: with the download URL when
the follow-up details fetch succeeded, without it otherwise. -/
structure UploadResponse where
  id : String
  status : String
  downloadURL : Option String
  createdAt : Nat
deriving DecidableEq, Repr

/-- `handleUploadContent` from `handlers.go`: validate arguments, decode
the data, upload, fetch details for the URL (failure there is tolerated).
The result is the Go pair (result, error). -/
def handleUploadContent {Reader Details : Type}
    (decode64 : String → Except String Reader)
    (download : String → Except MCPError Reader)
    (uploadContent : UploadContentRequest Reader → Except String Content)
    (getContentDetails : UUID → Except String Details)
    (detailsDownload : Details → String)
    (uuidParse : String → Option UUID)
    (params : Option ParamMap) : Option UploadResponse × Option MCPError :=
  match params with
  | none => (none, some (.validation "arguments" "cannot unmarshal arguments"))
  | some p =>
      match parseUUIDval uuidParse (lookupGo p "owner_id") with
      | .error e => (none, some (.validation "owner_id" e))
      | .ok ownerID =>
          match p.lookup "name" with
          | some (.vstr name) =>
              if name = "" then (none, some (.validation "name" "required"))
              else
                match sDecodeData decode64 download (lookupGo p "data") with
                | .error e => (none, some e)
                | .ok reader =>
                    let uploadReq : UploadContentRequest Reader :=
                      { ownerID := ownerID,
                        tenantID := parseTenantID uuidParse (lookupGo p "tenant_id"),
                        name := name,
                        description := getStringOr p "description" "",
                        documentType := getStringOr p "document_type" "application/octet-stream",
                        storageBackendName := getStringOr p "storage_backend" "",
                        reader := reader,
                        fileName := getStringOr p "file_name" "",
                        tags := getStringSlice p "tags",
                        customMetadata := getMap p "metadata" }
                    match uploadContent uploadReq with
                    | .error e => (none, some (sMapError e))
                    | .ok content =>
                        match getContentDetails content.id with
                        | .error _ =>
                            (some { id := content.id, status := content.status,
                                    downloadURL := none,
                                    createdAt := content.createdAt }, none)
                        | .ok details =>
                            (some { id := content.id, status := content.status,
                                    downloadURL := some (detailsDownload details),
                                    createdAt := content.createdAt }, none)
          | _ => (none, some (.validation "name" "required"))

/-- A message on a session's output channel. -/
inductive DispatchMsg (R : Type) where
  | result (r : R)
  | errorMsg (e : MCPError)

/-- Modelled from the spec: the per-intake dispatch write of the SDK
transport, which is not part of this repository's sources — "exactly one
write to the target session's output channel per intake message, regardless
of success or failure": the handler's terminal outcome (result or error)
is appended to the originating session's channel. -/
def dispatchWrite {R : Type} (channel : List (DispatchMsg R))
    (outcome : Option R × Option MCPError) : List (DispatchMsg R) :=
  match outcome with
  | (some r, _) => channel ++ [.result r]
  | (none, some e) => channel ++ [.errorMsg e]
  | (none, none) => channel

/-! ### list_content and search_content pagination -/

/-- `simplecontent.ListContentRequest` as built by the handlers. -/
structure ListContentRequest where
  ownerID : UUID := uuidNil
  tenantID : UUID := uuidNil
deriving DecidableEq, Repr

/-- The best-effort owner/tenant extraction of `handleListContent`'s
standard path and of `handleSearchContent` (parse failures are ignored). -/
def buildListReq (uuidParse : String → Option UUID) (p : ParamMap) : ListContentRequest :=
  let r : ListContentRequest := {}
  let r := match parseUUIDval uuidParse (lookupGo p "owner_id") with
    | .ok o => { r with ownerID := o }
    | .error _ => r
  match parseUUIDval uuidParse (lookupGo p "tenant_id") with
  | .ok t => { r with tenantID := t }
  | .error _ => r

/-- `admin.ContentFilters` as built by `handleListContent`'s admin path. -/
structure ContentFilters where
  limit : Int
  offset : Int
  ownerID : Option UUID := none
  tenantID : Option UUID := none
  status : Option String := none

/-- The client-side pagination of `handleListContent` and
`handleSearchContent`: clamp both bounds to the list length and slice.  A
Go slice expression panics outside `0 ≤ start ≤ stop ≤ len`; the panic is
the `none` case. -/
def paginateGo (contents : List Content) (offset limit : Int) : Option (List Content) :=
  let n : Int := contents.length
  let start := if offset > n then n else offset
  let stop := if offset + limit > n then n else offset + limit
  if 0 ≤ start ∧ start ≤ stop ∧ stop ≤ n then
    some ((contents.take stop.toNat).drop start.toNat)
  else none

/-- `toLowerString` from `handlers.go`. -/
def goToLowerStr (s : String) : String := String.mk (s.data.map goLowerChar)

/-- `matchAtPos` from `handlers.go`. -/
def matchAtPos (s substr : List Char) (pos : Nat) : Bool :=
  (List.range substr.length).all fun i => s.getD (pos + i) ' ' == substr.getD i ' '

/-- `containsString` from `handlers.go` (case-sensitive; its callers lower
both sides first). -/
def containsString (s substr : String) : Bool :=
  if substr.length = 0 then true
  else if s.length < substr.length then false
  else (List.range (s.length - substr.length + 1)).any fun i =>
    matchAtPos s.data substr.data i

/-- The query filter of `handleSearchContent`: keep contents whose lowered
name or description contains the lowered query. -/
def searchQueryFilter (query : String) (contents : List Content) : List Content :=
  if query = "" then contents
  else
    let queryLower := goToLowerStr query
    contents.filter fun c =>
      containsString (goToLowerStr c.name) queryLower
        || containsString (goToLowerStr c.description) queryLower

/-- The status filter of `handleSearchContent` (an array of statuses). -/
def searchStatusFilter (statusVal : Option GoVal) (contents : List Content) : List Content :=
  match statusVal with
  | some (.varr statusSlice) =>
      if statusSlice.length > 0 then
        let statusSet := statusSlice.filterMap fun v =>
          match v with | .vstr s => some s | _ => none
        contents.filter fun c => statusSet.contains c.status
      else contents
  | _ => contents

/-- The filtered list `handleSearchContent` paginates and counts. -/
def searchFiltered (p : ParamMap) (contents : List Content) : List Content :=
  searchStatusFilter (p.lookup "status")
    (searchQueryFilter (getStringOr p "query" "") contents)

/-- The page a list/search handler returns. -/
structure PageResponse where
  items : List Content
  total : Int
  limit : Int
  offset : Int
deriving DecidableEq, Repr

/-- `handleSearchContent` from `handlers.go`; the outer `Option` is `none`
exactly when the Go slice expression would panic. -/
def handleSearchContent (defaultPageSize : Int) (uuidParse : String → Option UUID)
    (listContent : ListContentRequest → Except String (List Content))
    (params : Option ParamMap) : Option (Option PageResponse × Option MCPError) :=
  match params with
  | none => some (none, some (.validation "arguments" "cannot unmarshal arguments"))
  | some p =>
      let listReq := buildListReq uuidParse p
      match listContent listReq with
      | .error e => some (none, some (sMapError e))
      | .ok contents =>
          let limit := getIntOr p "limit" defaultPageSize
          let offset := getIntOr p "offset" 0
          let filtered := searchFiltered p contents
          match paginateGo filtered offset limit with
          | none => none
          | some pagedContents =>
              some (some { items := pagedContents, total := (filtered.length : Int),
                           limit := limit, offset := offset }, none)

/-- The status filter of `handleListContent`'s standard path (one status
string). -/
def listStatusFilter (statusStr : String) (contents : List Content) : List Content :=
  if statusStr ≠ "" then contents.filter fun c => c.status == statusStr else contents

/-- `handleListContent` from `handlers.go`: the admin path delegates
pagination to the admin service; the standard path filters by status and
paginates client-side. -/
def handleListContent (requireOwnerID : Bool) (defaultPageSize : Int)
    (uuidParse : String → Option UUID)
    (listContent : ListContentRequest → Except String (List Content))
    (adminList : Option (ContentFilters → Except String (List Content)))
    (params : Option ParamMap) : Option (Option PageResponse × Option MCPError) :=
  match params with
  | none => some (none, some (.validation "arguments" "cannot unmarshal arguments"))
  | some p =>
      let limit := getIntOr p "limit" defaultPageSize
      let offset := getIntOr p "offset" 0
      match adminList, requireOwnerID with
      | some adminFn, false =>
          let filters : ContentFilters :=
            { limit := limit, offset := offset,
              ownerID := match parseUUIDval uuidParse (lookupGo p "owner_id") with
                | .ok o => if o ≠ uuidNil then some o else none
                | .error _ => none,
              tenantID := match parseUUIDval uuidParse (lookupGo p "tenant_id") with
                | .ok t => if t ≠ uuidNil then some t else none
                | .error _ => none,
              status := if getStringOr p "status" "" ≠ ""
                then some (getStringOr p "status" "") else none }
          match adminFn filters with
          | .error e => some (none, some (sMapError e))
          | .ok contents =>
              some (some { items := contents, total := (contents.length : Int),
                           limit := limit, offset := offset }, none)
      | _, _ =>
          match listContent (buildListReq uuidParse p) with
          | .error e => some (none, some (sMapError e))
          | .ok contents0 =>
              let contents := listStatusFilter (getStringOr p "status" "") contents0
              match (if requireOwnerID || adminList.isNone
                  then paginateGo contents offset limit else some contents) with
              | none => none
              | some pagedContents =>
                  some (some { items := pagedContents, total := (contents.length : Int),
                               limit := limit, offset := offset }, none)

/-! ### update_content -/

/-- `simplecontent.SetContentMetadataRequest` as built by
`handleUpdateContent`. -/
structure SetContentMetadataRequest where
  contentID : UUID
  tags : List String
  customMetadata : Option (List (String × GoVal))

/-- A service mutation issued by `handleUpdateContent`, in order. -/
inductive UpdateCall where
  | update (c : Content)
  | setMetadata (req : SetContentMetadataRequest)

/-- The payload `handleUpdateContent` returns on success (its timestamp is
wall-clock and out of scope). -/
structure UpdateResponse where
  success : Bool
deriving DecidableEq, Repr

/-- `handleUpdateContent` from `handlers.go`: fetch the current content,
overwrite name/description only when a non-empty argument was given, send
the update, then optionally set tags/metadata.  The second component logs
the service mutations in order. -/
def handleUpdateContent (uuidParse : String → Option UUID)
    (getContent : UUID → Except String Content)
    (updateContent : Content → Except String Unit)
    (setContentMetadata : SetContentMetadataRequest → Except String Unit)
    (params : Option ParamMap) :
    (Option UpdateResponse × Option MCPError) × List UpdateCall :=
  match params with
  | none => ((none, some (.validation "arguments" "cannot unmarshal arguments")), [])
  | some p =>
      match parseUUIDval uuidParse (lookupGo p "content_id") with
      | .error e => ((none, some (.validation "content_id" e)), [])
      | .ok contentID =>
          match getContent contentID with
          | .error e => ((none, some (sMapError e)), [])
          | .ok content0 =>
              let content1 := if getStringOr p "name" "" ≠ ""
                then { content0 with name := getStringOr p "name" "" } else content0
              let content2 := if getStringOr p "description" "" ≠ ""
                then { content1 with description := getStringOr p "description" "" }
                else content1
              match updateContent content2 with
              | .error e => ((none, some (sMapError e)), [.update content2])
              | .ok _ =>
                  if 0 < (getStringSlice p "tags").length ∨ (getMap p "metadata").isSome then
                    let metadataReq : SetContentMetadataRequest :=
                      { contentID := contentID, tags := getStringSlice p "tags",
                        customMetadata := getMap p "metadata" }
                    match setContentMetadata metadataReq with
                    | .error e =>
                        ((none, some (sMapError e)),
                          [.update content2, .setMetadata metadataReq])
                    | .ok _ =>
                        ((some { success := true }, none),
                          [.update content2, .setMetadata metadataReq])
                  else ((some { success := true }, none), [.update content2])

/-! ### Claim theorem for single-outcome dispatch -/

/-- C7: every `upload_content` intake produces exactly one terminal
outcome — a result or an error, never both and never neither — and the
modelled dispatch write appends exactly one message to the originating
session's channel, so no request is silently dropped. -/
theorem dispatch_exactly_one_outcome
    (Reader Details : Type)
    (decode64 : String → Except String Reader)
    (download : String → Except MCPError Reader)
    (uploadContent : UploadContentRequest Reader → Except String Content)
    (getContentDetails : UUID → Except String Details)
    (detailsDownload : Details → String)
    (uuidParse : String → Option UUID)
    (params : Option ParamMap)
    (channel : List (DispatchMsg UploadResponse)) :
    ((handleUploadContent decode64 download uploadContent getContentDetails
          detailsDownload uuidParse params).1.isSome = true
        ∧ (handleUploadContent decode64 download uploadContent getContentDetails
            detailsDownload uuidParse params).2 = none
      ∨ (handleUploadContent decode64 download uploadContent getContentDetails
          detailsDownload uuidParse params).1 = none
        ∧ (handleUploadContent decode64 download uploadContent getContentDetails
            detailsDownload uuidParse params).2.isSome = true)
    ∧ (dispatchWrite channel (handleUploadContent decode64 download uploadContent
        getContentDetails detailsDownload uuidParse params)).length
      = channel.length + 1 := by
  have hx : (handleUploadContent decode64 download uploadContent getContentDetails
        detailsDownload uuidParse params).1.isSome = true
      ∧ (handleUploadContent decode64 download uploadContent getContentDetails
          detailsDownload uuidParse params).2 = none
    ∨ (handleUploadContent decode64 download uploadContent getContentDetails
        detailsDownload uuidParse params).1 = none
      ∧ (handleUploadContent decode64 download uploadContent getContentDetails
          detailsDownload uuidParse params).2.isSome = true := by
    unfold handleUploadContent
    split <;> try simp
    all_goals try (split <;> try simp)
    all_goals try (split <;> try simp)
    all_goals try (split <;> try simp)
    all_goals try (split <;> try simp)
    all_goals try (split <;> try simp)
    all_goals try (split <;> try simp)
  refine ⟨hx, ?_⟩
  rcases hpair : handleUploadContent decode64 download uploadContent getContentDetails
      detailsDownload uuidParse params with ⟨o1, o2⟩
  rw [hpair] at hx
  rcases hx with ⟨h1, h2⟩ | ⟨h1, h2⟩
  · obtain ⟨r, hr⟩ := Option.isSome_iff_exists.mp h1
    have hr' : o1 = some r := hr
    have h2' : o2 = none := h2
    rw [hr', h2']
    simp [dispatchWrite]
  · obtain ⟨e, he⟩ := Option.isSome_iff_exists.mp h2
    have he' : o2 = some e := he
    have h1' : o1 = none := h1
    rw [h1', he']
    simp [dispatchWrite]

/-! ### Claim theorem for pagination clamping -/

theorem paginateGo_spec (contents : List Content) (offset limit : Int)
    (hoff : 0 ≤ offset) (hlim : 0 ≤ limit) :
    paginateGo contents offset limit
      = some ((contents.take (min (offset + limit) (contents.length : Int)).toNat).drop
          (min offset (contents.length : Int)).toNat)
    ∧ ((contents.take (min (offset + limit) (contents.length : Int)).toNat).drop
        (min offset (contents.length : Int)).toNat).length ≤ limit.toNat
    ∧ ((contents.length : Int) ≤ offset →
        (contents.take (min (offset + limit) (contents.length : Int)).toNat).drop
          (min offset (contents.length : Int)).toNat = []) := by
  have hn : (0 : Int) ≤ (contents.length : Int) := Int.natCast_nonneg _
  refine ⟨?_, ?_, ?_⟩
  · unfold paginateGo
    dsimp only
    have hstart : (if offset > (contents.length : Int) then (contents.length : Int) else offset)
        = min offset (contents.length : Int) := by
      rw [min_def]; split <;> split <;> omega
    have hstop : (if offset + limit > (contents.length : Int) then (contents.length : Int)
          else offset + limit)
        = min (offset + limit) (contents.length : Int) := by
      rw [min_def]; split <;> split <;> omega
    rw [hstart, hstop, if_pos]
    exact ⟨by omega, by omega, by omega⟩
  · rw [List.length_drop, List.length_take]
    omega
  · intro hpast
    rw [← List.length_eq_zero]
    rw [List.length_drop, List.length_take]
    omega

/-- C9: for every `search_content` or `list_content` invocation (standard,
non-admin path for the latter) with non-negative offset and limit, the
client-side pagination clamps both page bounds to the filtered list's
length: the response carries exactly the slice of the filtered list from
min(offset, n) to min(offset+limit, n), no out-of-range failure occurs, the
page has at most `limit` items, an offset past the end yields an empty
page, and `total` is the full filtered count n, not the page length. -/
theorem pagination_clamps
    (defaultPageSize : Int) (uuidParse : String → Option UUID)
    (listContent listContent2 : ListContentRequest → Except String (List Content))
    (adminList : Option (ContentFilters → Except String (List Content)))
    (requireOwnerID : Bool)
    (p q : ParamMap) (contents contents2 : List Content)
    (hoff : 0 ≤ getIntOr p "offset" 0)
    (hlim : 0 ≤ getIntOr p "limit" defaultPageSize)
    (hsvc : listContent (buildListReq uuidParse p) = .ok contents)
    (hoff2 : 0 ≤ getIntOr q "offset" 0)
    (hlim2 : 0 ≤ getIntOr q "limit" defaultPageSize)
    (hsvc2 : listContent2 (buildListReq uuidParse q) = .ok contents2)
    (hstd : requireOwnerID = true ∨ adminList = none) :
    (handleSearchContent defaultPageSize uuidParse listContent (some p)
        = some (some {
            items := (((searchFiltered p contents).take
                (min (getIntOr p "offset" 0 + getIntOr p "limit" defaultPageSize)
                  ((searchFiltered p contents).length : Int)).toNat).drop
                (min (getIntOr p "offset" 0) ((searchFiltered p contents).length : Int)).toNat),
            total := ((searchFiltered p contents).length : Int),
            limit := getIntOr p "limit" defaultPageSize,
            offset := getIntOr p "offset" 0 }, none)
      ∧ ∀ resp, handleSearchContent defaultPageSize uuidParse listContent (some p)
            = some (some resp, none) →
          resp.items.length ≤ (getIntOr p "limit" defaultPageSize).toNat
          ∧ (((searchFiltered p contents).length : Int) ≤ getIntOr p "offset" 0 →
              resp.items = []))
    ∧ (handleListContent requireOwnerID defaultPageSize uuidParse listContent2 adminList
          (some q)
        = some (some {
            items := (((listStatusFilter (getStringOr q "status" "") contents2).take
                (min (getIntOr q "offset" 0 + getIntOr q "limit" defaultPageSize)
                  ((listStatusFilter (getStringOr q "status" "") contents2).length : Int)).toNat).drop
                (min (getIntOr q "offset" 0)
                  ((listStatusFilter (getStringOr q "status" "") contents2).length : Int)).toNat),
            total := ((listStatusFilter (getStringOr q "status" "") contents2).length : Int),
            limit := getIntOr q "limit" defaultPageSize,
            offset := getIntOr q "offset" 0 }, none)
      ∧ ∀ resp, handleListContent requireOwnerID defaultPageSize uuidParse listContent2
            adminList (some q) = some (some resp, none) →
          resp.items.length ≤ (getIntOr q "limit" defaultPageSize).toNat
          ∧ (((listStatusFilter (getStringOr q "status" "") contents2).length : Int)
              ≤ getIntOr q "offset" 0 → resp.items = [])) := by
  obtain ⟨hpag, hbound, hpast⟩ := paginateGo_spec (searchFiltered p contents)
    (getIntOr p "offset" 0) (getIntOr p "limit" defaultPageSize) hoff hlim
  obtain ⟨hpag2, hbound2, hpast2⟩ := paginateGo_spec
    (listStatusFilter (getStringOr q "status" "") contents2)
    (getIntOr q "offset" 0) (getIntOr q "limit" defaultPageSize) hoff2 hlim2
  have hsearch : handleSearchContent defaultPageSize uuidParse listContent (some p)
      = some (some {
          items := (((searchFiltered p contents).take
              (min (getIntOr p "offset" 0 + getIntOr p "limit" defaultPageSize)
                ((searchFiltered p contents).length : Int)).toNat).drop
              (min (getIntOr p "offset" 0) ((searchFiltered p contents).length : Int)).toNat),
          total := ((searchFiltered p contents).length : Int),
          limit := getIntOr p "limit" defaultPageSize,
          offset := getIntOr p "offset" 0 }, none) := by
    unfold handleSearchContent
    dsimp only
    rw [hsvc]
    dsimp only
    rw [hpag]
  have hlist : handleListContent requireOwnerID defaultPageSize uuidParse listContent2
        adminList (some q)
      = some (some {
          items := (((listStatusFilter (getStringOr q "status" "") contents2).take
              (min (getIntOr q "offset" 0 + getIntOr q "limit" defaultPageSize)
                ((listStatusFilter (getStringOr q "status" "") contents2).length : Int)).toNat).drop
              (min (getIntOr q "offset" 0)
                ((listStatusFilter (getStringOr q "status" "") contents2).length : Int)).toNat),
          total := ((listStatusFilter (getStringOr q "status" "") contents2).length : Int),
          limit := getIntOr q "limit" defaultPageSize,
          offset := getIntOr q "offset" 0 }, none) := by
    unfold handleListContent
    dsimp only
    rcases hstd with h | h
    · subst h
      cases adminList with
      | none =>
          dsimp only
          rw [hsvc2]
          dsimp only
          rw [if_pos (by simp), hpag2]
      | some adminFn =>
          dsimp only
          rw [hsvc2]
          dsimp only
          rw [if_pos (by simp), hpag2]
    · subst h
      cases requireOwnerID with
      | false =>
          dsimp only
          rw [hsvc2]
          dsimp only
          rw [if_pos (by simp), hpag2]
      | true =>
          dsimp only
          rw [hsvc2]
          dsimp only
          rw [if_pos (by simp), hpag2]
  refine ⟨⟨hsearch, ?_⟩, hlist, ?_⟩
  · intro resp hresp
    rw [hsearch] at hresp
    have : resp = {
        items := (((searchFiltered p contents).take
            (min (getIntOr p "offset" 0 + getIntOr p "limit" defaultPageSize)
              ((searchFiltered p contents).length : Int)).toNat).drop
            (min (getIntOr p "offset" 0) ((searchFiltered p contents).length : Int)).toNat),
        total := ((searchFiltered p contents).length : Int),
        limit := getIntOr p "limit" defaultPageSize,
        offset := getIntOr p "offset" 0 } := by
      have h1 := Option.some.inj hresp
      have h2 := congrArg Prod.fst h1
      exact (Option.some.inj h2).symm
    subst this
    exact ⟨hbound, hpast⟩
  · intro resp hresp
    rw [hlist] at hresp
    have : resp = {
        items := (((listStatusFilter (getStringOr q "status" "") contents2).take
            (min (getIntOr q "offset" 0 + getIntOr q "limit" defaultPageSize)
              ((listStatusFilter (getStringOr q "status" "") contents2).length : Int)).toNat).drop
            (min (getIntOr q "offset" 0)
              ((listStatusFilter (getStringOr q "status" "") contents2).length : Int)).toNat),
        total := ((listStatusFilter (getStringOr q "status" "") contents2).length : Int),
        limit := getIntOr q "limit" defaultPageSize,
        offset := getIntOr q "offset" 0 } := by
      have h1 := Option.some.inj hresp
      have h2 := congrArg Prod.fst h1
      exact (Option.some.inj h2).symm
    subst this
    exact ⟨hbound2, hpast2⟩

/-! ### Claim theorem for update_content field preservation -/

/-- C10: `update_content` fetches the stored content and issues an update
request whose name and description equal the provided non-empty arguments
and otherwise the prior stored values; an absent or empty (or non-string)
name/description argument leaves the field unchanged, so a field cannot be
cleared to the empty string unless it already was empty, and every other
field of the update request equals the fetched content's value. -/
theorem update_preserves_absent_fields
    (uuidParse : String → Option UUID)
    (getContent : UUID → Except String Content)
    (updateContent : Content → Except String Unit)
    (setContentMetadata : SetContentMetadataRequest → Except String Unit)
    (p : ParamMap) (contentID : UUID) (c : Content)
    (hcid : parseUUIDval uuidParse (lookupGo p "content_id") = .ok contentID)
    (hget : getContent contentID = .ok c) :
    ∃ c', (handleUpdateContent uuidParse getContent updateContent setContentMetadata
          (some p)).2.head? = some (.update c')
      ∧ c'.name = (if getStringOr p "name" "" ≠ "" then getStringOr p "name" "" else c.name)
      ∧ c'.description = (if getStringOr p "description" "" ≠ ""
          then getStringOr p "description" "" else c.description)
      ∧ (getStringOr p "name" "" = "" → c'.name = c.name)
      ∧ (getStringOr p "description" "" = "" → c'.description = c.description)
      ∧ (c'.name = "" → c.name = "")
      ∧ (c'.description = "" → c.description = "")
      ∧ c'.id = c.id ∧ c'.ownerID = c.ownerID ∧ c'.tenantID = c.tenantID
      ∧ c'.status = c.status ∧ c'.derivationType = c.derivationType
      ∧ c'.createdAt = c.createdAt ∧ c'.updatedAt = c.updatedAt := by
  have hcalls : ∃ rest, (handleUpdateContent uuidParse getContent updateContent
      setContentMetadata (some p)).2
      = .update (if getStringOr p "description" "" ≠ ""
          then { (if getStringOr p "name" "" ≠ ""
              then { c with name := getStringOr p "name" "" } else c)
            with description := getStringOr p "description" "" }
          else (if getStringOr p "name" "" ≠ ""
              then { c with name := getStringOr p "name" "" } else c)) :: rest := by
    unfold handleUpdateContent
    dsimp only
    rw [hcid]
    dsimp only
    rw [hget]
    dsimp only
    split
    · exact ⟨[], rfl⟩
    · split
      · split
        · exact ⟨_, rfl⟩
        · exact ⟨_, rfl⟩
      · exact ⟨[], rfl⟩
  obtain ⟨rest, hrest⟩ := hcalls
  refine ⟨_, by rw [hrest]; rfl, ?_, ?_, ?_, ?_, ?_, ?_, ?_, ?_, ?_, ?_, ?_, ?_, ?_⟩
  all_goals by_cases hn : getStringOr p "name" "" ≠ ""
  all_goals by_cases hd : getStringOr p "description" "" ≠ ""
  all_goals simp only [hn, hd, if_true, if_false, ite_true, ite_false, if_pos, if_neg,
    not_true, not_false_iff]
  all_goals try simp_all

/-! ### Witness fixtures and witnesses for C9 and C10 -/

def wContentA : Content :=
  { id := "c1", ownerID := "o", tenantID := "t", name := "Alpha", description := "first",
    status := "uploaded", derivationType := "", createdAt := 1, updatedAt := 2 }

def wContentB : Content :=
  { id := "c2", ownerID := "o", tenantID := "t", name := "Beta", description := "second",
    status := "created", derivationType := "", createdAt := 3, updatedAt := 4 }

def wContentC : Content :=
  { id := "c3", ownerID := "o", tenantID := "t", name := "Gamma", description := "third",
    status := "uploaded", derivationType := "", createdAt := 5, updatedAt := 6 }

def wContents : List Content := [wContentA, wContentB, wContentC]

def wListContent : ListContentRequest → Except String (List Content) := fun _ => .ok wContents

def wParamsSearch : ParamMap :=
  [("query", .vstr "a"), ("offset", .vint 1), ("limit", .vint 5)]

def wParamsList : ParamMap :=
  [("status", .vstr "uploaded"), ("offset", .vint 9), ("limit", .vint 2)]

/-- Witness for C9: a concrete search page respects the limit, and a
concrete list request with an offset past the end yields an empty page
while still reporting the full filtered total. -/
theorem pagination_clamps_witness :
    (∃ resp, handleSearchContent 50 wUUIDParse wListContent (some wParamsSearch)
        = some (some resp, none)
      ∧ resp.items.length ≤ 5)
    ∧ (∃ resp, handleListContent true 50 wUUIDParse wListContent none (some wParamsList)
        = some (some resp, none)
      ∧ resp.items = [] ∧ resp.total = 2) := by
  obtain ⟨⟨hs, hsb⟩, hl, hlb⟩ := pagination_clamps 50 wUUIDParse wListContent wListContent
    none true wParamsSearch wParamsList wContents wContents
    (by decide) (by decide) rfl (by decide) (by decide) rfl (Or.inl rfl)
  constructor
  · exact ⟨_, hs, (hsb _ hs).1⟩
  · exact ⟨_, hl, (hlb _ hl).2 (by decide), by decide⟩

def wParamsUpdate : ParamMap :=
  [("content_id", .vstr "cid-uuid"), ("description", .vstr "newdesc")]

def wStored : Content :=
  { id := "cid-uuid", ownerID := "o", tenantID := "", name := "KeepName",
    description := "olddesc", status := "uploaded", derivationType := "",
    createdAt := 0, updatedAt := 0 }

def wGetContent : UUID → Except String Content := fun u =>
  if u = "cid-uuid" then .ok wStored else .error "not found"

def wUpdateContent : Content → Except String Unit := fun _ => .ok ()

def wSetMeta : SetContentMetadataRequest → Except String Unit := fun _ => .ok ()

/-- Witness for C10: updating only the description keeps the stored name
and the other fields in the update request sent to the service. -/
theorem update_preserves_absent_fields_witness :
    ∃ c', (handleUpdateContent wUUIDParse wGetContent wUpdateContent wSetMeta
          (some wParamsUpdate)).2.head? = some (.update c')
      ∧ c'.name = "KeepName" ∧ c'.description = "newdesc" ∧ c'.status = "uploaded" := by
  obtain ⟨c', hhead, hname, hdesc, _, _, _, _, _, _, _, hstatus, _, _, _⟩ :=
    update_preserves_absent_fields wUUIDParse wGetContent wUpdateContent wSetMeta
      wParamsUpdate "cid-uuid" wStored rfl rfl
  refine ⟨c', hhead, ?_, ?_, ?_⟩
  · rw [hname]; rfl
  · rw [hdesc]; rfl
  · rw [hstatus]; rfl

end SCMCP
